import Mathlib

/-!
# Verification of the MuPDF PDF writer (`source/pdf/pdf-write.c`)

This file gives a shallow embedding, in Lean 4, of the algorithmic core of
the PDF document serializer found in `source/pdf/pdf-write.c`, and proves
(or refutes) a collection of claims about it.

Machine integers of the C source (`int`, `fz_off_t`) are modelled as `Nat`;
all values manipulated by the embedded algorithms (use-list flags, object
ids, file offsets, generation counters) are non-negative and far below
2^31 in the source, so no overflow wrapping is modelled.  Arrays indexed
by object number are modelled as functions `Nat → Nat` updated with
`Function.update`, or as `Array Nat` where the C code works on a
heap-in-array.  External collaborators of the writer (the object parser,
`pdf_objcmp`, the byte sink, zlib) are abstracted as parameters, exactly
as the specification treats them as external contracts.
-/

namespace PdfWrite

/-! ## Use-list flag constants (pdf-write.c, lines 102-113) -/

def USE_CATALOGUE : Nat := 2

def USE_PAGE1 : Nat := 4

def USE_SHARED : Nat := 8

def USE_PARAMS : Nat := 16

def USE_HINTS : Nat := 32

def USE_PAGE_OBJECT : Nat := 64

def USE_OTHER_OBJECTS : Nat := 128

def USE_PAGE_SHIFT : Nat := 8

/-- The 32-bit value of the C expression `~USE_PAGE_OBJECT` (all bits except
bit 6).  Use-list values in the source are non-negative `int`s, so masking
with the 32-bit complement is faithful. -/
def NOT_USE_PAGE_OBJECT : Nat := 2 ^ 32 - 1 - USE_PAGE_OBJECT

/-! ## The linearization comparator `order_ge` (pdf-write.c, lines 261-333)

A direct transcription of the C comparator, including the two unreachable
`ui == 0` / `uj == 0` re-checks that sit between the `USE_OTHER_OBJECTS`
and `USE_SHARED` tests in the source. -/

def order_ge (ui uj : Nat) : Bool :=
  if (ui ^^^ uj) &&& NOT_USE_PAGE_OBJECT = 0 then decide (ui &&& USE_PAGE_OBJECT = 0)
  else if ui = 0 then true
  else if uj = 0 then false
  else if ui &&& USE_HINTS ≠ 0 then true
  else if uj &&& USE_HINTS ≠ 0 then false
  else if ui &&& USE_PAGE1 ≠ 0 then true
  else if uj &&& USE_PAGE1 ≠ 0 then false
  else if ui &&& USE_CATALOGUE ≠ 0 then true
  else if uj &&& USE_CATALOGUE ≠ 0 then false
  else if ui &&& USE_PARAMS ≠ 0 then true
  else if uj &&& USE_PARAMS ≠ 0 then false
  else if ui &&& USE_OTHER_OBJECTS ≠ 0 then true
  else if uj &&& USE_OTHER_OBJECTS ≠ 0 then false
  else if ui = 0 then true
  else if uj = 0 then false
  else if ui &&& USE_SHARED ≠ 0 then true
  else if uj &&& USE_SHARED ≠ 0 then false
  else decide (ui >>> USE_PAGE_SHIFT ≥ uj >>> USE_PAGE_SHIFT)

/-- The section tier of a use-list value, following the specification's
precedence list `HINTS > PAGE1 > CATALOGUE > PARAMS > OTHER > SHARED`
(values with no low-byte flags, i.e. plain page-index values, are the
lowest tier; the spec's "(no-flags)" tier corresponds to the unreachable
`ui == 0` re-check in the source and never applies, a zero value being
caught by the "unused last" rule first). -/
def order_tier (u : Nat) : Nat :=
  if u &&& USE_HINTS ≠ 0 then 6
  else if u &&& USE_PAGE1 ≠ 0 then 5
  else if u &&& USE_CATALOGUE ≠ 0 then 4
  else if u &&& USE_PARAMS ≠ 0 then 3
  else if u &&& USE_OTHER_OBJECTS ≠ 0 then 2
  else if u &&& USE_SHARED ≠ 0 then 1
  else 0

/-- Comparator written from the specification's rule list: (1) if the two
values differ only in `PAGE_OBJECT`, the page object sorts earlier;
(2) unused sorts last; (3) otherwise compare section tiers, and values in
the lowest tier (no low-byte flags) compare by page index; equal non-page
tiers tie (the comparator reports `≥`). -/
def order_spec (ui uj : Nat) : Bool :=
  if (ui ^^^ uj) &&& NOT_USE_PAGE_OBJECT = 0 then decide (ui &&& USE_PAGE_OBJECT = 0)
  else if ui = 0 then true
  else if uj = 0 then false
  else if order_tier ui ≠ order_tier uj then decide (order_tier ui > order_tier uj)
  else if order_tier ui = 0 then decide (ui >>> USE_PAGE_SHIFT ≥ uj >>> USE_PAGE_SHIFT)
  else true

/-- A generic priority cascade over a list of flags: the first flag set on
either side decides the comparison (left wins ties), and `base` decides when
no flag is set on either side.  `order_ge`'s flag chain is an instance. -/
def flag_cascade (base : Nat → Nat → Bool) : List Nat → Nat → Nat → Bool
  | [], ui, uj => base ui uj
  | f :: fs, ui, uj =>
    if ui &&& f ≠ 0 then true
    else if uj &&& f ≠ 0 then false
    else flag_cascade base fs ui uj

/-- Tier of a value with respect to a priority list of flags: `length + 1`
for the first flag set, scanning left to right; 0 when none is set. -/
def flag_tier : List Nat → Nat → Nat
  | [], _ => 0
  | f :: fs, u => if u &&& f ≠ 0 then fs.length + 1 else flag_tier fs u

/-- The priority list of `order_ge`, highest first. -/
def order_flags : List Nat :=
  [USE_HINTS, USE_PAGE1, USE_CATALOGUE, USE_PARAMS, USE_OTHER_OBJECTS, USE_SHARED]

/-! ## Page object lists: heap sort and dedupe (pdf-write.c, lines 201-259 and 441-473)

The C code maintains each page's object list as an embedded-array heap.
`page_objects_sort` is the heapsort of lines 201-259, `page_objects_dedupe`
the in-place dedupe of lines 441-460.  The `while` loops are modelled with
a fuel argument (the loops of the source terminate because the heap index
strictly moves; fuel `a.size + 1` is always sufficient). -/

/-- Swap two cells of an array (the three-assignment `tmp` dance of the C). -/
def aswap (a : Array Nat) (i j : Nat) : Array Nat :=
  let vi := a.get! i
  let vj := a.get! j
  (a.set! i vj).set! j vi

/-- The `while (j != 0)` bubble-up loop in step 1 of `page_objects_sort`. -/
def po_bubble_up : Nat → Array Nat → Nat → Array Nat
  | 0, a, _ => a
  | fuel + 1, a, j =>
    if j = 0 then a
    else
      let k := (j - 1) / 2
      if a.get! k ≥ a.get! j then a
      else po_bubble_up fuel (aswap a k j) k

/-- The `while (1)` sift-down loop in step 2 of `page_objects_sort`; `i` is
the boundary of the remaining heap. -/
def po_sift_down : Nat → Array Nat → Nat → Nat → Array Nat
  | 0, a, _, _ => a
  | fuel + 1, a, i, j =>
    let k := (j + 1) * 2 - 1
    if k > i - 1 then a
    else
      let k := if k < i - 1 ∧ a.get! k < a.get! (k + 1) then k + 1 else k
      if a.get! j > a.get! k then a
      else po_sift_down fuel (aswap a j k) i k

/-- `page_objects_sort` (pdf-write.c, lines 201-259): heapify, then repeatedly
swap the maximum to the end and sift down. -/
def page_objects_sort (a : Array Nat) : Array Nat :=
  let n := a.size
  let a := (List.range' 1 (n - 1)).foldl (fun a i => po_bubble_up (i + 1) a i) a
  ((List.range' 1 (n - 1)).reverse).foldl
    (fun a i => po_sift_down (a.size + 1) (aswap a 0 i) i 0) a

/-- `page_objects_dedupe` (pdf-write.c, lines 441-460), including its use of
`n = po->len - 1` as the bound of the second (copy-down) loop.  The C code
operates in place and truncates `po->len` to `j+1`; the model returns the
truncated array.  (Lists in the source always have at least one element:
a page records at least its page object.) -/
def page_objects_dedupe (a : Array Nat) : Array Nat :=
  let n := a.size - 1
  let i0 := ((List.range n).find? (fun i => a.get! i = a.get! (i + 1))).getD n
  let bj := (List.range' (i0 + 1) (n - (i0 + 1))).foldl
    (fun (bj : Array Nat × Nat) i =>
      if bj.1.get! bj.2 ≠ bj.1.get! i then (bj.1.set! (bj.2 + 1) (bj.1.get! i), bj.2 + 1)
      else bj)
    (a, i0)
  bj.1.extract 0 (bj.2 + 1)

/-- `page_objects_list_sort_and_dedupe` (pdf-write.c, lines 462-473): sort and
dedupe every page's list. -/
def page_objects_list_sort_and_dedupe (pol : List (Array Nat)) : List (Array Nat) :=
  pol.map (fun po => page_objects_dedupe (page_objects_sort po))

/-! ## Duplicate removal (pdf-write.c, lines 601-693)

`removeduplicateobjs` compares every object with every lower-numbered
object.  The object model's structural comparison `pdf_objcmp` is an
external collaborator (`source/pdf/pdf-object.c`, not part of this core):
it is abstracted as decidable equality on an abstract value type `α`, and
raw stream bytes (`pdf_load_raw_renumbered_stream`) as a list of bytes per
object id. -/

/-- The inputs of `removeduplicateobjs`.  `objval num` is the parsed object
of id `num` as compared by `pdf_objcmp`; `isStream num` the result of
`pdf_is_stream`; `rawbuf num` the raw undecoded stream bytes. -/
structure DedupDoc (α : Type) where
  xref_len : Nat
  objval : Nat → α
  isStream : Nat → Bool
  rawbuf : Nat → List Nat
  do_garbage : Nat

/-- The write-state arrays touched by duplicate removal. -/
structure DedupState where
  use_list : Nat → Nat
  renumber_map : Nat → Nat
  rev_renumber_map : Nat → Nat

/-- The inner `for (other = 1; other < num; other++)` loop of
`removeduplicateobjs`, with the C `continue`/`break` structure: the first
matching `other` merges and stops the scan. -/
def removeduplicate_inner {α : Type} [DecidableEq α] (d : DedupDoc α) (num : Nat) :
    List Nat → DedupState → DedupState
  | [], st => st
  | other :: rest, st =>
    if num = other ∨ st.use_list num = 0 ∨ st.use_list other = 0 then
      removeduplicate_inner d num rest st
    else
      let streama := d.isStream num
      let streamb := d.isStream other
      let differ := (streama || streamb) && !(streama && streamb && decide (4 ≤ d.do_garbage))
      if differ then removeduplicate_inner d num rest st
      else if d.objval num ≠ d.objval other then removeduplicate_inner d num rest st
      else if streama && streamb && d.rawbuf num ≠ d.rawbuf other then
        removeduplicate_inner d num rest st
      else
        let newnum := min num other
        { use_list := Function.update st.use_list (max num other) 0
          renumber_map :=
            Function.update (Function.update st.renumber_map num newnum) other newnum
          rev_renumber_map := Function.update st.rev_renumber_map newnum num }

/-- `removeduplicateobjs` (pdf-write.c, lines 601-693): the outer loop over
`num` in `[1, xref_len)`, each scanning the preceding ids `[1, num)`. -/
def removeduplicateobjs {α : Type} [DecidableEq α] (d : DedupDoc α) (st : DedupState) :
    DedupState :=
  (List.range' 1 (d.xref_len - 1)).foldl
    (fun st num => removeduplicate_inner d num (List.range' 1 (num - 1)) st) st

/-- Structural equality of two entries, written from the specification's
words: a stream and a non-stream are never equal; two streams are equal
only under aggressive dedup (`garbage >= 4`) with byte-identical raw
buffers (and equal stream dictionaries); two non-streams are equal when
`pdf_objcmp` says so. -/
def dedupe_equal {α : Type} [DecidableEq α] (d : DedupDoc α) (i j : Nat) : Bool :=
  decide (d.objval i = d.objval j) &&
    (match d.isStream i, d.isStream j with
     | false, false => true
     | true, true => decide (4 ≤ d.do_garbage) && decide (d.rawbuf i = d.rawbuf j)
     | _, _ => false)

/-- The effect of one merge, written from the specification's words: both
ids renumber to `min i j`, `use` of `max i j` is cleared, and the reverse
map records the larger id for the survivor. -/
def dedupe_merge (st : DedupState) (i j : Nat) : DedupState :=
  { use_list := Function.update st.use_list (max i j) 0
    renumber_map :=
      Function.update (Function.update st.renumber_map j (min i j)) i (min i j)
    rev_renumber_map := Function.update st.rev_renumber_map (min i j) (max i j) }

/-- Duplicate removal written from the specification's words: scan ids in
ascending order; a live id `j` merges with the first live `i < j` that is
structurally equal to it (at most one merge per `j`). -/
def removeduplicateobjs_spec {α : Type} [DecidableEq α] (d : DedupDoc α) (st : DedupState) :
    DedupState :=
  (List.range' 1 (d.xref_len - 1)).foldl
    (fun st num =>
      if st.use_list num = 0 then st
      else
        match (List.range' 1 (num - 1)).find?
            (fun other => st.use_list other ≠ 0 && dedupe_equal d other num) with
        | none => st
        | some other => dedupe_merge st other num)
    st

/-! ## Xref compaction (pdf-write.c, lines 701-736) -/

/-- The write-state arrays touched by `compactxref`. -/
structure CompactState where
  renumber_map : Nat → Nat
  rev_renumber_map : Nat → Nat
  rev_gen_list : Nat → Nat
  newnum : Nat

/-- One iteration of the `compactxref` loop body (pdf-write.c, lines 714-735):
unused ids map to 0; unmoved used ids receive the next new id from the
monotone counter; moved ids copy the (already compacted) value of their
target. -/
def compactxref_step (use_list : Nat → Nat) (st : CompactState) (num : Nat) : CompactState :=
  if use_list (st.renumber_map num) = 0 then
    { st with renumber_map := Function.update st.renumber_map num 0 }
  else if st.renumber_map num = num then
    { renumber_map := Function.update st.renumber_map num st.newnum
      rev_renumber_map :=
        Function.update st.rev_renumber_map st.newnum (st.rev_renumber_map num)
      rev_gen_list := Function.update st.rev_gen_list st.newnum (st.rev_gen_list num)
      newnum := st.newnum + 1 }
  else
    { st with
      renumber_map :=
        Function.update st.renumber_map num (st.renumber_map (st.renumber_map num)) }

/-- `compactxref` (pdf-write.c, lines 701-736): sweep ids `1 .. xref_len-1`
in ascending order with the new-id counter starting at 1. -/
def compactxref (use_list : Nat → Nat) (xref_len : Nat)
    (renumber_map rev_renumber_map rev_gen_list : Nat → Nat) : CompactState :=
  (List.range' 1 (xref_len - 1)).foldl (compactxref_step use_list)
    { renumber_map := renumber_map
      rev_renumber_map := rev_renumber_map
      rev_gen_list := rev_gen_list
      newnum := 1 }

/-- Number of ids in `[1, k]` that `compactxref` keeps (used and unmoved):
these are exactly the ids that draw a fresh value from the new-id counter. -/
def kept_count (use_list renumber0 : Nat → Nat) (k : Nat) : Nat :=
  ((List.range' 1 k).filter
    (fun j => decide (use_list (renumber0 j) ≠ 0) && decide (renumber0 j = j))).length

/-- The invariant established by duplicate removal (and trivially by the
identity renumber map), assumed by `compactxref`: `renumber[i] ≤ i`, and a
moved id points at a positive, live, unmoved id. -/
def DedupeInv (use_list renumber0 : Nat → Nat) (xref_len : Nat) : Prop :=
  ∀ i, 1 ≤ i → i < xref_len →
    renumber0 i ≤ i ∧
    (renumber0 i ≠ i →
      1 ≤ renumber0 i ∧ renumber0 (renumber0 i) = renumber0 i ∧
        use_list (renumber0 i) ≠ 0)

/-! ## The page classifier (pdf-write.c, lines 897-1096)

`mark_all`, `mark_pages`, `mark_root` and `mark_trailer` walk the object
graph from the trailer, tagging each reachable object's use-list entry.
PDF objects are modelled by the inductive `PObj`; a document maps each
object id to its (resolved, direct) parsed object.  The `pdf_mark_obj` /
`pdf_unmark_obj` cycle protection of the source marks resolved objects on
the current path and unmarks them on exit; it is modelled by the list of
object ids on the path.  The mutual recursion over a cyclic graph is given
a fuel argument; all concrete runs below use ample fuel. -/

/-- The 32-bit value of the C expression `USE_PAGE_MASK = ~255` (all bits
above the low byte).  Use-list values are non-negative `int`s, so masking
with the 32-bit complement is faithful. -/
def USE_PAGE_MASK : Nat := 2 ^ 32 - 256

/-- A parsed PDF object value. -/
inductive PObj where
  | null
  | int (n : Int)
  | name (s : String)
  | array (elems : List PObj)
  | dict (entries : List (String × PObj))
  | ref (num : Nat)

/-- A document: each object id resolves to a direct (non-reference) object.
Out-of-range ids resolve to `PObj.null`. -/
def PDoc : Type := Nat → PObj

/-- `pdf_resolve_indirect`: follow an indirect reference into the document. -/
def presolve (doc : PDoc) : PObj → PObj
  | .ref num => doc num
  | v => v

/-- `pdf_to_num`: the id of a reference object, 0 for direct objects. -/
def pto_num : PObj → Nat
  | .ref num => num
  | _ => 0

/-- `pdf_dict_get` restricted to what the classifier needs: first entry with
the given key. -/
def pdict_get (entries : List (String × PObj)) (key : String) : Option PObj :=
  (entries.find? (fun kv => kv.1 = key)).map (fun kv => kv.2)

/-- `pdf_name_eq(PDF_NAME_Page, pdf_dict_get(val, Type))`: the dictionary's
`Type` entry is the name `Page`. -/
def is_page_type (entries : List (String × PObj)) : Bool :=
  match pdict_get entries "Type" with
  | some (.name s) => s = "Page"
  | _ => false

/-- The catalog's `PageMode` entry is the name `UseOutlines`. -/
def page_mode_use_outlines (catalog : List (String × PObj)) : Bool :=
  match pdict_get catalog "PageMode" with
  | some (.name s) => s = "UseOutlines"
  | _ => false

/-- The classifier's write state: the use list, the per-page object lists
(`page_objects_list_insert` appends), the per-page page-object number, and
the page count. -/
structure MarkState where
  use_list : Nat → Nat
  pol : Nat → List Nat
  pol_page_object : Nat → Nat
  page_count : Nat

/-- The use-list update applied by `mark_all` on reaching an indirect
reference (pdf-write.c, lines 906-915): an entry whose page-index field
(bits above the low byte, `USE_PAGE_MASK`) is non-zero gets `USE_SHARED`
added; otherwise the arriving flag is or-ed in. -/
def mark_step (use_num flag : Nat) : Nat :=
  if use_num &&& USE_PAGE_MASK ≠ 0 then use_num ||| USE_SHARED
  else use_num ||| flag

/-- The page flag chosen by `mark_pages` for a page subtree (pdf-write.c,
line 962): `USE_PAGE1` for page index 0, else `page_index << 8`. -/
def page_flag (pagenum : Nat) : Nat :=
  if pagenum = 0 then USE_PAGE1 else pagenum <<< USE_PAGE_SHIFT

/-- The children a `mark_all` / `mark_pages` traversal descends into:
dictionary values (keys are never references) and array elements. -/
def pchildren : PObj → List PObj
  | .array elems => elems
  | .dict entries => entries.map (fun kv => kv.2)
  | _ => []

mutual

/-- `mark_all` (pdf-write.c, lines 897-945).  `marks` is the set of object
ids marked on the current path (`pdf_mark_obj` / `pdf_unmark_obj`); `page`
is the C `int` page argument, negative for "no page list insertion". -/
def mark_all (doc : PDoc) : Nat → MarkState → List Nat → PObj → Nat → Int → MarkState
  | 0, st, _, _, _, _ => st
  | fuel + 1, st, marks, val, flag, page =>
    match val with
    | .ref num =>
      if num ∈ marks then st
      else
        let st :=
          { st with
            use_list :=
              Function.update st.use_list num (mark_step (st.use_list num) flag) }
        let st :=
          if 0 ≤ page then
            { st with pol := Function.update st.pol page.toNat (st.pol page.toNat ++ [num]) }
          else st
        mark_vals doc fuel st (num :: marks) (pchildren (doc num)) flag page
    | v => mark_vals doc fuel st marks (pchildren v) flag page

/-- Recursion of `mark_all` into the values of a dictionary or the elements
of an array. -/
def mark_vals (doc : PDoc) : Nat → MarkState → List Nat → List PObj → Nat → Int → MarkState
  | 0, st, _, _, _, _ => st
  | _ + 1, st, _, [], _, _ => st
  | fuel + 1, st, marks, v :: vs, flag, page =>
    mark_vals doc fuel (mark_all doc fuel st marks v flag page) marks vs flag page

end

mutual

/-- `mark_pages` (pdf-write.c, lines 947-1013).  Walks the `Pages` tree;
returns the updated state and the running page counter.  A node with
`Type = Page` is unmarked again and classified whole via `mark_all` with
the page flag; container nodes recurse through `Kids` and mark everything
else as catalogue. -/
def mark_pages (doc : PDoc) : Nat → MarkState → List Nat → PObj → Nat → MarkState × Nat
  | 0, st, _, _, pagenum => (st, pagenum)
  | fuel + 1, st, marks, val, pagenum =>
    let cyc : Bool := match val with | .ref n => decide (n ∈ marks) | _ => false
    if cyc then (st, pagenum)
    else
      let marks2 := match val with | .ref n => n :: marks | _ => marks
      match presolve doc val with
      | .dict entries =>
        if is_page_type entries then
          let num := pto_num val
          let st := mark_all doc fuel st marks val (page_flag pagenum) (Int.ofNat pagenum)
          let st := { st with pol_page_object := Function.update st.pol_page_object pagenum num }
          let st :=
            { st with
              use_list :=
                Function.update st.use_list num (st.use_list num ||| USE_PAGE_OBJECT) }
          (st, pagenum + 1)
        else
          let stpg := mark_pages_entries doc fuel st marks2 entries pagenum
          (match val with
           | .ref n =>
             ({ stpg.1 with
                use_list :=
                  Function.update stpg.1.use_list n (stpg.1.use_list n ||| USE_CATALOGUE) },
              stpg.2)
           | _ => stpg)
      | .array elems =>
        let stpg := mark_pages_list doc fuel st marks2 elems pagenum
        (match val with
         | .ref n =>
           ({ stpg.1 with
              use_list :=
                Function.update stpg.1.use_list n (stpg.1.use_list n ||| USE_CATALOGUE) },
            stpg.2)
         | _ => stpg)
      | _ => (st, pagenum)

/-- The entry loop of a container node in `mark_pages`: `Kids` recurses as
pages, every other value is marked as catalogue. -/
def mark_pages_entries (doc : PDoc) :
    Nat → MarkState → List Nat → List (String × PObj) → Nat → MarkState × Nat
  | 0, st, _, _, pagenum => (st, pagenum)
  | _ + 1, st, _, [], pagenum => (st, pagenum)
  | fuel + 1, st, marks, (key, obj) :: rest, pagenum =>
    if key = "Kids" then
      let stpg := mark_pages doc fuel st marks obj pagenum
      mark_pages_entries doc fuel stpg.1 marks rest stpg.2
    else
      mark_pages_entries doc fuel (mark_all doc fuel st marks obj USE_CATALOGUE (-1)) marks rest pagenum

/-- The element loop of an array node in `mark_pages`. -/
def mark_pages_list (doc : PDoc) :
    Nat → MarkState → List Nat → List PObj → Nat → MarkState × Nat
  | 0, st, _, _, pagenum => (st, pagenum)
  | _ + 1, st, _, [], pagenum => (st, pagenum)
  | fuel + 1, st, marks, v :: vs, pagenum =>
    let stpg := mark_pages doc fuel st marks v pagenum
    mark_pages_list doc fuel stpg.1 marks vs stpg.2

end

/-- The entry loop of `mark_root` (pdf-write.c, lines 1031-1055): `Pages`
starts the page walk, `Names` and `Dests` mark as other-objects, `Outlines`
marks as `PAGE1` or other-objects depending on the catalog's `PageMode`,
everything else as catalogue. -/
def mark_root_entries (doc : PDoc) (fuel : Nat) (catalog : List (String × PObj)) :
    MarkState → List Nat → List (String × PObj) → MarkState
  | st, _, [] => st
  | st, marks, (key, val) :: rest =>
    let st :=
      if key = "Pages" then
        let stpg := mark_pages doc fuel st marks val 0
        { stpg.1 with page_count := stpg.2 }
      else if key = "Names" then mark_all doc fuel st marks val USE_OTHER_OBJECTS (-1)
      else if key = "Dests" then mark_all doc fuel st marks val USE_OTHER_OBJECTS (-1)
      else if key = "Outlines" then
        let sec :=
          if page_mode_use_outlines catalog then USE_PAGE1
          else USE_OTHER_OBJECTS
        mark_all doc fuel st marks val sec (-1)
      else mark_all doc fuel st marks val USE_CATALOGUE (-1)
    mark_root_entries doc fuel catalog st marks rest

/-- `mark_root` (pdf-write.c, lines 1015-1065): mark the catalog itself as
catalogue when indirect, then classify each catalog entry. -/
def mark_root (doc : PDoc) (fuel : Nat) (st : MarkState) (val : PObj) : MarkState :=
  let cyc : Bool := match val with | .ref n => decide (n ∈ ([] : List Nat)) | _ => false
  if cyc then st
  else
    let marks : List Nat := match val with | .ref n => [n] | _ => []
    let st :=
      match val with
      | .ref n =>
        { st with use_list := Function.update st.use_list n (st.use_list n ||| USE_CATALOGUE) }
      | _ => st
    match presolve doc val with
    | .dict entries => mark_root_entries doc fuel entries st marks entries
    | _ => st

/-- The entry loop of `mark_trailer` (pdf-write.c, lines 1077-1086): the
`Root` value goes through `mark_root`, every other trailer value is marked
as catalogue. -/
def mark_trailer_entries (doc : PDoc) (fuel : Nat) :
    MarkState → List (String × PObj) → MarkState
  | st, [] => st
  | st, (key, val) :: rest =>
    let st :=
      if key = "Root" then mark_root doc fuel st val
      else mark_all doc fuel st [] val USE_CATALOGUE (-1)
    mark_trailer_entries doc fuel st rest

/-- `mark_trailer` (pdf-write.c, lines 1067-1096) applied to a trailer
dictionary. -/
def mark_trailer (doc : PDoc) (fuel : Nat) (st : MarkState) (trailer : PObj) : MarkState :=
  match presolve doc trailer with
  | .dict entries => mark_trailer_entries doc fuel st entries
  | _ => st

/-- The all-zero initial classifier state (`linearize` clears the use list
before `mark_trailer`, pdf-write.c line 1379). -/
def initMarkState : MarkState :=
  { use_list := fun _ => 0
    pol := fun _ => []
    pol_page_object := fun _ => 0
    page_count := 0 }

/-! ## Two-pass emission at the byte-offset level (pdf-write.c, lines 2073-2159
and 2808-2848)

`dowriteobject` / `writeobjects` and the linear branch of
`pdf_save_document` are embedded at the level of file offsets: the byte
sink is modelled by the output position, and each serialized object by its
emitted length (a parameter; serialization itself is the external
`pdf_print_obj` / stream machinery).  `padto` is the pad loop of lines
2073-2084. -/

/-- An xref entry's type: `'f'` (free), `'n'` (in use), `'o'` (in object
stream). -/
inductive XrefType where
  | free
  | used
  | objstm
deriving DecidableEq

/-- The static inputs of the emission model.  `obj_len pass num` is the
number of bytes `writeobject` emits for object `num` in the given pass;
`first_xref_len pass` and `main_xref_len pass` the lengths of the two xref
blocks (pass 1 re-prints patched values no longer than the `INT_MIN`
placeholders of pass 0); `entry_gen` the stored generation of each entry. -/
structure EmitCfg where
  xref_len : Nat
  start : Nat
  do_linear : Bool
  do_garbage : Nat
  etype : Nat → XrefType
  entry_gen : Nat → Nat
  obj_len : Nat → Nat → Nat
  header_len : Nat
  first_xref_len : Nat → Nat
  main_xref_len : Nat → Nat
  hintstream_len : Nat

/-- The mutable write state of the emission model. -/
structure EmitState where
  pos : Nat
  ofs_list : Nat → Nat
  gen_list : Nat → Nat
  use_list : Nat → Nat
  first_xref_offset : Nat
  main_xref_offset : Nat

/-- `padto` (pdf-write.c, lines 2073-2084): pad with newlines up to the
target position (a no-op when already at or past it). -/
def padto (pos target : Nat) : Nat := max pos target

/-- `dowriteobject` (pdf-write.c, lines 2086-2120) for a non-incremental
save: update the generation entry, skip unused ids under garbage
collection, then for live entries pad (pass > 0), record the offset and
emit; free entries are cleared in the use list. -/
def dowriteobject (cfg : EmitCfg) (pass num : Nat) (st : EmitState) : EmitState :=
  let g0 :=
    match cfg.etype num with
    | .free => cfg.entry_gen num
    | .used => cfg.entry_gen num
    | .objstm => 0
  let g1 := if 2 ≤ cfg.do_garbage then (if num = 0 then 65535 else 0) else g0
  let st := { st with gen_list := Function.update st.gen_list num g1 }
  if cfg.do_garbage ≠ 0 ∧ st.use_list num = 0 then st
  else
    match cfg.etype num with
    | .free => { st with use_list := Function.update st.use_list num 0 }
    | _ =>
      let st := if 0 < pass then { st with pos := padto st.pos (st.ofs_list num) } else st
      let st := { st with ofs_list := Function.update st.ofs_list num st.pos }
      { st with pos := st.pos + cfg.obj_len pass num }

/-- A `for` loop of `dowriteobject` calls over a list of object ids (the
middle loop of `writeobjects`). -/
def run_objs (cfg : EmitCfg) (pass : Nat) (nums : List Nat) (st : EmitState) : EmitState :=
  nums.foldl (fun s n => dowriteobject cfg pass n s) st

/-- The tail loop of `writeobjects` in pass 1: each object's recorded offset
is advanced by `adj` (the hint stream length) before `dowriteobject` pads to
it. -/
def run_objs_adj (cfg : EmitCfg) (adj : Nat) (nums : List Nat) (st : EmitState) : EmitState :=
  nums.foldl
    (fun s n =>
      dowriteobject cfg 1 n
        { s with ofs_list := Function.update s.ofs_list n (s.ofs_list n + adj) }) st

/-- `writeobjects` (pdf-write.c, lines 2122-2159) for a non-incremental
save: header, object `start`, (linear) the first xref, objects
`[start+1, xref_len)`, (linear pass 1) pad to the start of the tail
section, then objects `[1, start)` with their offsets advanced by the hint
stream length in pass 1. -/
def writeobjects (cfg : EmitCfg) (pass : Nat) (st : EmitState) : EmitState :=
  let st := { st with pos := st.pos + cfg.header_len }
  let st := dowriteobject cfg pass cfg.start st
  let st :=
    if cfg.do_linear then
      let st :=
        if pass = 0 then { st with first_xref_offset := st.pos }
        else { st with pos := padto st.pos st.first_xref_offset }
      { st with pos := st.pos + cfg.first_xref_len pass }
    else st
  let st := run_objs cfg pass (List.range' (cfg.start + 1) (cfg.xref_len - (cfg.start + 1))) st
  let st :=
    if cfg.do_linear ∧ pass = 1 then
      { st with
        pos :=
          padto st.pos
            (if cfg.start = 1 then st.main_xref_offset
             else st.ofs_list 1 + cfg.hintstream_len) }
    else st
  (List.range' 1 (cfg.start - 1)).foldl
    (fun s n =>
      let s :=
        if pass = 1 then
          { s with ofs_list := Function.update s.ofs_list n (s.ofs_list n + cfg.hintstream_len) }
        else s
      dowriteobject cfg pass n s) st

/-- The free-list construction of `pdf_save_document` (pdf-write.c, lines
2816-2826): walk ids in ascending order; every unused id has its
generation bumped and is chained from the previous free id.  Returns the
updated offset list, generation list and the final `lastfree`. -/
def construct_free_list (use_list : Nat → Nat) (xref_len : Nat)
    (ofs_list gen_list : Nat → Nat) : (Nat → Nat) × (Nat → Nat) × Nat :=
  (List.range xref_len).foldl
    (fun (acc : (Nat → Nat) × (Nat → Nat) × Nat) num =>
      if use_list num = 0 then
        (Function.update acc.1 acc.2.2 num,
         Function.update acc.2.1 num (acc.2.1 num + 1),
         num)
      else acc)
    (ofs_list, gen_list, 0)

/-- The linear branch of `pdf_save_document` after the configuration
checks (pdf-write.c, lines 2808-2848): pass-0 emission, free-list
construction, recording of `main_xref_offset` at the end of pass 0, main
xref emission, hint-stream accounting (`main_xref_offset +=
hintstream_len`), seek to 0 and pass-1 emission, final pad to
`main_xref_offset` and the main xref again. -/
def pdf_save_linear (cfg : EmitCfg) (st0 : EmitState) : EmitState :=
  let st := writeobjects cfg 0 st0
  let fl := construct_free_list st.use_list cfg.xref_len st.ofs_list st.gen_list
  let st := { st with ofs_list := fl.1, gen_list := fl.2.1 }
  let st := { st with main_xref_offset := st.pos }
  let st := { st with pos := st.pos + cfg.main_xref_len 0 }
  let st := { st with main_xref_offset := st.main_xref_offset + cfg.hintstream_len }
  let st := { st with pos := 0 }
  let st := writeobjects cfg 1 st
  let st := { st with pos := padto st.pos st.main_xref_offset }
  { st with pos := st.pos + cfg.main_xref_len 1 }

/-! ## Per-object error recovery in `writeobject` (pdf-write.c, lines
1713-1824)

`writeobject` loads and serializes one object.  Failures are modelled by
`Except`: `SerErr.trylater` is `FZ_ERROR_TRYLATER`, which both catch
blocks rethrow (`fz_rethrow_if`) before consulting `continue_on_error`;
any other failure is `SerErr.generic`.  The emitted bytes are modelled as
a `String`; serialization of a loaded object is a parameter. -/

inductive SerErr where
  | generic
  | trylater
deriving DecidableEq

instance {ε α : Type} [DecidableEq ε] [DecidableEq α] : DecidableEq (Except ε α) := fun x y =>
  match x, y with
  | .ok a, .ok b => decidable_of_iff (a = b) (by simp)
  | .ok _, .error _ => isFalse (by simp)
  | .error _, .ok _ => isFalse (by simp)
  | .error e, .error f => decidable_of_iff (e = f) (by simp)

/-- What `writeobject` observes about one object: the `ObjStm`/`XRef` type
skips, and the result of serializing the object's body (dictionary
printing plus, for streams, the `copystream`/`expandstream` pipeline,
which can fail). -/
structure ObjInfo where
  isObjStm : Bool
  isXRef : Bool
  ser : Except SerErr String
deriving DecidableEq

/-- The placeholder emitted for a failed object under `continue_on_error`
(pdf-write.c, lines 1728 and 1810): `num gen obj\nnull\nendobj\n`. -/
def placeholder (num gen : Nat) : String :=
  toString num ++ " " ++ toString gen ++ " obj\nnull\nendobj\n"

/-- `writeobject` (pdf-write.c, lines 1713-1824): a load failure or a
serialization failure is rethrown when it is `FZ_ERROR_TRYLATER` or when
`continue_on_error` is off; otherwise the placeholder is emitted and the
error counter incremented.  `ObjStm` objects are never written, `XRef`
objects are skipped when `skip_xrefs` is set.  Returns the emitted bytes
and the error-counter increment. -/
def writeobject (coe skip_xrefs : Bool) (num gen : Nat)
    (load : Except SerErr ObjInfo) : Except SerErr (String × Nat) :=
  match load with
  | .error e =>
    if e = .trylater then .error e
    else if coe then .ok (placeholder num gen, 1)
    else .error e
  | .ok info =>
    if info.isObjStm then .ok ("", 0)
    else if skip_xrefs && info.isXRef then .ok ("", 0)
    else
      match info.ser with
      | .ok s => .ok (s, 0)
      | .error e =>
        if e = .trylater then .error e
        else if coe then .ok (placeholder num gen, 1)
        else .error e

/-- A sequence of `writeobject` calls as performed by the object loops of
`writeobjects`: outputs concatenate and error counts add; a rethrown error
aborts the whole save. -/
def writeobject_loop (coe skip_xrefs : Bool) :
    List (Nat × Nat × Except SerErr ObjInfo) → Except SerErr (String × Nat)
  | [] => .ok ("", 0)
  | (num, gen, load) :: rest =>
    match writeobject coe skip_xrefs num gen load with
    | .error e => .error e
    | .ok sk =>
      match writeobject_loop coe skip_xrefs rest with
      | .error e => .error e
      | .ok sk2 => .ok (sk.1 ++ sk2.1, sk.2 + sk2.2)

/-! ## The free-list chain (pdf-write.c, lines 2816-2826)

`construct_free_list` above builds the chain; `follow_chain` reads it
back: starting from entry 0, `ofs[k]` is the next free id, and the chain
ends when it reaches an entry whose `ofs` is 0.  `none` means the fuel ran
out before termination. -/

def follow_chain (ofs_list : Nat → Nat) : Nat → Nat → Option (List Nat)
  | 0, _ => none
  | fuel + 1, cur =>
    if ofs_list cur = 0 then some [cur]
    else (follow_chain ofs_list fuel (ofs_list cur)).map (fun l => cur :: l)

/-- The ascending list of free ids (entries with `use == 0`) below
`xref_len`. -/
def free_ids (use_list : Nat → Nat) (xref_len : Nat) : List Nat :=
  (List.range xref_len).filter (fun i => use_list i = 0)

/-- `xs` is a chain under `ofs_list`: each element points at the next, and
the final element points at 0. -/
def IsChain (ofs_list : Nat → Nat) : List Nat → Prop
  | [] => True
  | [x] => ofs_list x = 0
  | x :: y :: rest => ofs_list x = y ∧ IsChain ofs_list (y :: rest)

/-! ## The orchestrator's freeze-updates discipline (pdf-write.c, lines
2681-2878)

The control skeleton of `pdf_save_document`: configuration checks happen
before `doc->freeze_updates = 1`; the sanitize pass, the incremental
"nothing to write" early return and the output-open failure happen after
it but before the `fz_try` block whose `fz_always` clause resets the
flag.  External effects are abstracted to the outcome of each step. -/

inductive SaveOutcome where
  | earlyNullDoc
  | configErrorGarbage
  | configErrorLinear
  | cleanError
  | earlyNoChanges
  | openError
  | bodyError
  | completed
deriving DecidableEq

/-- The inputs of one `pdf_save_document` call that determine its control
path. -/
structure SaveCfg where
  doc_present : Bool
  do_incremental : Bool
  do_garbage : Nat
  do_linear : Bool
  do_clean : Bool
  clean_fails : Bool
  num_incremental_sections : Nat
  open_ok : Bool
  body_fails : Bool

/-- The control skeleton of `pdf_save_document` (pdf-write.c, lines
2681-2878), tracking the document's `freeze_updates` flag.  Returns the
flag's value after the call together with the outcome. -/
def pdf_save_document (cfg : SaveCfg) (freeze0 : Bool) : Bool × SaveOutcome :=
  if ¬cfg.doc_present then (freeze0, .earlyNullDoc)
  else if cfg.do_incremental ∧ cfg.do_garbage ≠ 0 then (freeze0, .configErrorGarbage)
  else if cfg.do_incremental ∧ cfg.do_linear then (freeze0, .configErrorLinear)
  else
    let freeze := true
    if cfg.do_clean ∧ cfg.clean_fails then (freeze, .cleanError)
    else if cfg.do_incremental ∧ cfg.num_incremental_sections = 0 then (freeze, .earlyNoChanges)
    else if ¬cfg.open_ok then (freeze, .openError)
    else if cfg.body_fails then (false, .bodyError)
    else (false, .completed)

/-- Per-object expected output, written from the specification's words: a
(recoverable) failure yields the placeholder together with one counted
error, skipped objects yield nothing, otherwise the serialized bytes. -/
def writeobject_expected (skip_xrefs : Bool) (num gen : Nat)
    (load : Except SerErr ObjInfo) : String × Nat :=
  match load with
  | .error _ => (placeholder num gen, 1)
  | .ok info =>
    if info.isObjStm then ("", 0)
    else if skip_xrefs && info.isXRef then ("", 0)
    else
      match info.ser with
      | .ok s => (s, 0)
      | .error _ => (placeholder num gen, 1)

/-- An object presents no retryable (`FZ_ERROR_TRYLATER`) failure to
`writeobject`. -/
def no_trylater (load : Except SerErr ObjInfo) : Bool :=
  match load with
  | .error e => decide (e ≠ SerErr.trylater)
  | .ok info => decide (info.ser ≠ Except.error SerErr.trylater)

/-! ## Concrete documents and configurations used to settle the claims -/

/-- A two-page document in which object 5 (a resource) is referenced from
the content of page 0 and of page 1: catalog 1, page tree node 2, pages 3
and 4, shared object 5. -/
def doc_shared_pages : PDoc := fun n =>
  match n with
  | 1 => .dict [("Pages", .ref 2)]
  | 2 => .dict [("Kids", .array [.ref 3, .ref 4])]
  | 3 => .dict [("Type", .name "Page"), ("Contents", .ref 5)]
  | 4 => .dict [("Type", .name "Page"), ("Contents", .ref 5)]
  | 5 => .dict []
  | _ => .null

/-- The trailer of `doc_shared_pages`. -/
def trailer_shared_pages : PObj := .dict [("Root", .ref 1), ("Size", .int 6)]

/-- The classifier's result on `doc_shared_pages`. -/
def classify_shared_pages : MarkState :=
  mark_trailer doc_shared_pages 100 initMarkState trailer_shared_pages

/-- A small linear-mode emission configuration: 4 xref entries, `start = 2`
(so new id 1 is the single remaining-pages/shared/other object, 2 the
linearization params, 3 the hint stream), every object 10 bytes long in
both passes, 10-byte header, 20-byte first xref, 30-byte main xref, 5-byte
hint stream. -/
def linear_demo_cfg : EmitCfg :=
  { xref_len := 4
    start := 2
    do_linear := true
    do_garbage := 2
    etype := fun n => if n = 0 then .free else .used
    entry_gen := fun _ => 0
    obj_len := fun _ _ => 10
    header_len := 10
    first_xref_len := fun _ => 20
    main_xref_len := fun _ => 30
    hintstream_len := 5 }

/-- The initial write state for `linear_demo_cfg` (entry 0 free, all
other entries live). -/
def linear_demo_state : EmitState :=
  { pos := 0
    ofs_list := fun _ => 0
    gen_list := fun _ => 0
    use_list := fun n => if n = 0 then 0 else 1
    first_xref_offset := 0
    main_xref_offset := 0 }

/-- Three objects as seen by the emission loop: a healthy object, one whose
serialization fails (recoverably), and another healthy object. -/
def demo_objs : List (Nat × Nat × Except SerErr ObjInfo) :=
  [(1, 0, Except.ok { isObjStm := false, isXRef := false, ser := Except.ok "A" }),
   (2, 0, Except.error SerErr.generic),
   (3, 0, Except.ok { isObjStm := false, isXRef := false, ser := Except.ok "B" })]

/-- A plain full save configuration that runs the whole body successfully. -/
def save_demo_cfg : SaveCfg :=
  { doc_present := true, do_incremental := false, do_garbage := 0, do_linear := false
    do_clean := false, clean_fails := false, num_incremental_sections := 0
    open_ok := true, body_fails := false }

/-! # Theorems -/

theorem flag_tier_le (fs : List Nat) (u : Nat) : flag_tier fs u ≤ fs.length := by
  induction fs with
  | nil => simp [flag_tier]
  | cons f fs ih =>
    simp only [flag_tier, List.length_cons]
    split
    · omega
    · omega

theorem flag_cascade_eq_tier (base : Nat → Nat → Bool) (fs : List Nat) (ui uj : Nat) :
    flag_cascade base fs ui uj =
      (if flag_tier fs ui ≠ flag_tier fs uj then decide (flag_tier fs ui > flag_tier fs uj)
       else if flag_tier fs ui = 0 then base ui uj
       else true) := by
  induction fs with
  | nil => simp [flag_cascade, flag_tier]
  | cons f fs ih =>
    simp only [flag_cascade, flag_tier]
    by_cases hi : ui &&& f ≠ 0
    · simp only [if_pos hi]
      by_cases hj : uj &&& f ≠ 0
      · simp only [if_pos hj]
        rw [if_neg (by omega), if_neg (by omega)]
      · simp only [if_neg hj]
        have := flag_tier_le fs uj
        rw [if_pos (by omega)]
        simp only [gt_iff_lt]
        rw [decide_eq_true_eq.mpr (by omega)]
    · simp only [if_neg hi]
      by_cases hj : uj &&& f ≠ 0
      · simp only [if_pos hj]
        have := flag_tier_le fs ui
        rw [if_pos (by omega)]
        simp only [gt_iff_lt]
        rw [eq_comm, decide_eq_false_iff_not]
        omega
      · simp only [if_neg hj]
        exact ih

theorem order_tier_eq_flag_tier (u : Nat) : order_tier u = flag_tier order_flags u := by
  simp only [order_tier, order_flags, flag_tier, List.length_cons, List.length_nil]

theorem order_ge_eq_spec (ui uj : Nat) : order_ge ui uj = order_spec ui uj := by
  unfold order_ge order_spec
  by_cases h1 : (ui ^^^ uj) &&& NOT_USE_PAGE_OBJECT = 0
  · simp only [if_pos h1]
  simp only [if_neg h1]
  by_cases h2 : ui = 0
  · simp only [if_pos h2]
  simp only [if_neg h2]
  by_cases h3 : uj = 0
  · simp only [if_pos h3]
  simp only [if_neg h3]
  have hc :
      (if ui &&& USE_HINTS ≠ 0 then true
       else if uj &&& USE_HINTS ≠ 0 then false
       else if ui &&& USE_PAGE1 ≠ 0 then true
       else if uj &&& USE_PAGE1 ≠ 0 then false
       else if ui &&& USE_CATALOGUE ≠ 0 then true
       else if uj &&& USE_CATALOGUE ≠ 0 then false
       else if ui &&& USE_PARAMS ≠ 0 then true
       else if uj &&& USE_PARAMS ≠ 0 then false
       else if ui &&& USE_OTHER_OBJECTS ≠ 0 then true
       else if uj &&& USE_OTHER_OBJECTS ≠ 0 then false
       else if ui &&& USE_SHARED ≠ 0 then true
       else if uj &&& USE_SHARED ≠ 0 then false
       else decide (ui >>> USE_PAGE_SHIFT ≥ uj >>> USE_PAGE_SHIFT)) =
      flag_cascade (fun a b => decide (a >>> USE_PAGE_SHIFT ≥ b >>> USE_PAGE_SHIFT))
        order_flags ui uj := by
    simp only [order_flags, flag_cascade]
  rw [hc, flag_cascade_eq_tier, order_tier_eq_flag_tier, order_tier_eq_flag_tier]

theorem order_ge_self (u : Nat) : order_ge u u = decide (u &&& USE_PAGE_OBJECT = 0) := by
  unfold order_ge
  rw [if_pos]
  simp

theorem or_shared_shiftRight (u : Nat) :
    (u ||| USE_SHARED) >>> USE_PAGE_SHIFT = u >>> USE_PAGE_SHIFT := by
  apply Nat.eq_of_testBit_eq
  intro i
  simp only [USE_SHARED, USE_PAGE_SHIFT, Nat.testBit_shiftRight, Nat.testBit_or]
  have h8 : Nat.testBit 8 (8 + i) = false := by
    apply Nat.testBit_lt_two_pow
    calc (8 : Nat) < 2 ^ 4 := by norm_num
    _ ≤ 2 ^ (8 + i) := Nat.pow_le_pow_right (by norm_num) (by omega)
  simp [h8]

theorem or_shared_page1 (u : Nat) :
    (u ||| USE_SHARED) &&& USE_PAGE1 = u &&& USE_PAGE1 := by
  apply Nat.eq_of_testBit_eq
  intro i
  simp only [USE_SHARED, USE_PAGE1, Nat.testBit_and, Nat.testBit_or]
  by_cases hi : i = 2
  · subst hi; simp [show Nat.testBit 8 2 = false from by decide]
  · have h4 : Nat.testBit 4 i = false := by
      have h42 : (4 : Nat) = 2 ^ 2 := by norm_num
      rw [h42]; exact Nat.testBit_two_pow_of_ne (fun h => hi h.symm)
    simp [h4]

/-! ### Claim C6 -/

/-- C6 (counterexample): `order_ge` is not a total order on use-list
values: on the value `USE_PAGE_OBJECT` the comparator is irreflexive
(`order_ge u u = false`), so for the pair `(USE_PAGE_OBJECT,
USE_PAGE_OBJECT)` neither direction of the comparison holds. -/
theorem order_ge_not_total_order :
    order_ge USE_PAGE_OBJECT USE_PAGE_OBJECT = false := by decide

/-- C6 (amended): `order_ge` implements exactly the stated rules — page
object first among values differing only in `PAGE_OBJECT`, unused last,
then the section precedence `HINTS > PAGE1 > CATALOGUE > PARAMS > OTHER >
SHARED` with remaining (no-flag) values ordered by ascending page index —
as captured by the rule-list comparator `order_spec`; but it is not a
total order: on values with the `PAGE_OBJECT` bit it is irreflexive. -/
theorem order_ge_amended :
    (∀ ui uj, order_ge ui uj = order_spec ui uj) ∧
    (∀ u, order_ge u u = decide (u &&& USE_PAGE_OBJECT = 0)) :=
  ⟨order_ge_eq_spec, order_ge_self⟩

/-! ### Claim C7 -/

/-- C7: after heap sort, `page_objects_dedupe` can lose the last distinct
element of a page's object list: the inserted multiset `{2, 1, 1}` sorts
to `[1, 1, 2]`, and deduplication returns `[1]` — the id 2 is gone,
contradicting both the claim and the code's own purpose of the routine
(its copy loop stops at `n = len - 1` and never examines the final
element). -/
theorem page_objects_dedupe_drops_last :
    page_objects_list_sort_and_dedupe [#[2, 1, 1]] = [#[1]] ∧
    page_objects_sort #[2, 1, 1] = #[1, 1, 2] ∧
    page_objects_dedupe #[1, 1, 2] = #[1] := by decide

/-! ### Claim C2 -/

/-- C2 (counterexample): after compaction the renumber map need not be
idempotent.  With three entries, object 1 unused and object 2 live (and
the identity renumber map left by the sweep), compaction maps `1 ↦ 0` and
`2 ↦ 1`, so `renumber[renumber[2]] = 0 ≠ 1 = renumber[2]`. -/
theorem compactxref_not_idempotent :
    ((compactxref (fun n => if n = 1 then 0 else 1) 3 id id id).renumber_map
        ((compactxref (fun n => if n = 1 then 0 else 1) 3 id id id).renumber_map 2) ≠
      (compactxref (fun n => if n = 1 then 0 else 1) 3 id id id).renumber_map 2) := by
  decide

/-! ### Claim C3 -/

/-- C3 (counterexample): `SHARED` is not set exactly for objects referenced
from two or more page subtrees.  In `doc_shared_pages`, object 5 is
recorded in the object lists of page 0 and of page 1, yet its use entry
(`PAGE1 ||| 1 <<< 8 = 260`) has no `SHARED` bit: the "already used" test
of `mark_all` checks only the page-index field (`use & ~255`), which a
`PAGE1`-marked entry does not satisfy. -/
theorem mark_shared_counterexample :
    5 ∈ classify_shared_pages.pol 0 ∧ 5 ∈ classify_shared_pages.pol 1 ∧
    classify_shared_pages.use_list 5 &&& USE_SHARED = 0 := by decide

/-- C3 (amended): the update applied by `mark_all` on reaching a reference
(pdf-write.c, lines 906-915) adds `SHARED` exactly when the entry already
has a non-zero page-index field (`use & USE_PAGE_MASK ≠ 0`), leaving the
page marking (both the page-index field and the `PAGE1` bit) unchanged in
that case; an entry whose page-index field is zero — even one already
marked `PAGE1` — instead receives the arriving flag. -/
theorem mark_shared_amended :
    (∀ u flag, u &&& USE_PAGE_MASK ≠ 0 →
      mark_step u flag = u ||| USE_SHARED ∧
        (u ||| USE_SHARED) >>> USE_PAGE_SHIFT = u >>> USE_PAGE_SHIFT ∧
        (u ||| USE_SHARED) &&& USE_PAGE1 = u &&& USE_PAGE1) ∧
    (∀ u flag, u &&& USE_PAGE_MASK = 0 → mark_step u flag = u ||| flag) := by
  constructor
  · intro u flag h
    exact ⟨by simp [mark_step, h], or_shared_shiftRight u, or_shared_page1 u⟩
  · intro u flag h
    simp [mark_step, h]

theorem mark_shared_amended_witness :
    mark_step 256 USE_CATALOGUE = 256 ||| USE_SHARED ∧
      mark_step USE_PAGE1 256 = USE_PAGE1 ||| 256 :=
  ⟨(mark_shared_amended.1 256 USE_CATALOGUE (by decide)).1,
   mark_shared_amended.2 USE_PAGE1 256 (by decide)⟩

/-! ### Claim C4 -/

/-- C4 (counterexample): `PAGE1` and a non-zero page-index field are not
mutually exclusive.  In `doc_shared_pages`, object 5 is reached first from
page 0 (marked `PAGE1`) and then from page 1; since its page-index field
is still zero on the second arrival, `mark_all` ors in `1 <<< 8`, leaving
`use = PAGE1 ||| (1 <<< 8)` with both the `PAGE1` flag and bits above
bit 7 set. -/
theorem page1_page_index_not_exclusive :
    classify_shared_pages.use_list 5 &&& USE_PAGE1 ≠ 0 ∧
    classify_shared_pages.use_list 5 &&& USE_PAGE_MASK ≠ 0 := by decide

/-- C4 (amended): an object reached from a page context while its
page-index field is zero is marked by or-ing in `PAGE1` when the page
index is 0 and `page_index << 8` otherwise (`page_flag`, pdf-write.c line
962); the exclusivity of `PAGE1` and the page-index field fails, however:
object 5 of `doc_shared_pages` ends the classifier pass carrying both. -/
theorem page_marking_amended :
    (∀ u pagenum, u &&& USE_PAGE_MASK = 0 →
      mark_step u (page_flag pagenum) = u ||| page_flag pagenum) ∧
    page_flag 0 = USE_PAGE1 ∧
    (∀ pagenum, pagenum ≠ 0 → page_flag pagenum = pagenum <<< USE_PAGE_SHIFT) ∧
    (classify_shared_pages.use_list 5 &&& USE_PAGE1 = USE_PAGE1 ∧
      classify_shared_pages.use_list 5 >>> USE_PAGE_SHIFT = 1) := by
  refine ⟨?_, rfl, ?_, by decide⟩
  · intro u pagenum h
    simp [mark_step, h]
  · intro pagenum h
    simp [page_flag, h]

theorem page_marking_amended_witness :
    mark_step USE_CATALOGUE (page_flag 3) = USE_CATALOGUE ||| page_flag 3 ∧
      page_flag 3 = 3 <<< USE_PAGE_SHIFT :=
  ⟨page_marking_amended.1 USE_CATALOGUE 3 (by decide),
   page_marking_amended.2.2.1 3 (by decide)⟩

/-! ### Claim C5 (counterexample) -/

/-- C5 (counterexample): in a linearized save the objects with new ids in
`[1, start)` are written before the main xref, not after it: in the
concrete run `linear_demo_cfg`, object 1 (the only id in `[1, start)`)
ends pass 1 with offset 55 while `main_xref_offset` is 65 — the recorded
offset is strictly less than `main_xref_offset`, not strictly greater. -/
theorem linear_tail_offsets_counterexample :
    ¬ (pdf_save_linear linear_demo_cfg linear_demo_state).main_xref_offset <
        (pdf_save_linear linear_demo_cfg linear_demo_state).ofs_list 1 := by decide

/-! ### Claim C8 -/

/-- C8 (counterexample): a retryable (`FZ_ERROR_TRYLATER`) failure while
writing an object is rethrown even under `continue_on_error`
(`fz_rethrow_if` precedes the `continue_on_error` test in both catch
blocks of `writeobject`): the save aborts instead of emitting the
placeholder and counting an error. -/
theorem writeobject_trylater_counterexample :
    writeobject_loop true true [(7, 0, Except.error SerErr.trylater)] =
        Except.error SerErr.trylater ∧
      writeobject true true 7 0 (Except.error SerErr.trylater) ≠
        Except.ok (placeholder 7 0, 1) := by decide

/-- C8 (amended): under `continue_on_error`, any non-retryable failure
while serializing a single object makes the writer emit the placeholder
`num gen obj\nnull\nendobj\n` for that object and count one error, and the
loop continues with the remaining objects unaffected: the total output is
the concatenation of every object's individual expected output and the
error counter the number of failed objects. -/
theorem writeobject_continue_on_error_amended (skipx : Bool)
    (objs : List (Nat × Nat × Except SerErr ObjInfo))
    (h : ∀ o ∈ objs, no_trylater o.2.2 = true) :
    writeobject_loop true skipx objs =
      Except.ok
        ((objs.map (fun o => (writeobject_expected skipx o.1 o.2.1 o.2.2).1)).foldr
            (· ++ ·) "",
          (objs.map (fun o => (writeobject_expected skipx o.1 o.2.1 o.2.2).2)).sum) := by
  induction objs with
  | nil => rfl
  | cons o rest ih =>
    obtain ⟨num, gen, load⟩ := o
    have h1 : no_trylater load = true := h _ (List.mem_cons_self _ _)
    have hstep :
        writeobject true skipx num gen load =
          Except.ok (writeobject_expected skipx num gen load) := by
      cases load with
      | error e =>
        cases e with
        | generic => rfl
        | trylater => simp [no_trylater] at h1
      | ok info =>
        have hser : info.ser ≠ Except.error SerErr.trylater := by
          simpa [no_trylater] using h1
        by_cases hstm : info.isObjStm
        · simp [writeobject, writeobject_expected, hstm]
        · by_cases hxr : skipx && info.isXRef
          · simp [writeobject, writeobject_expected, hstm, hxr]
          · cases hs : info.ser with
            | ok s => simp [writeobject, writeobject_expected, hstm, hxr, hs]
            | error e =>
              cases e with
              | generic => simp [writeobject, writeobject_expected, hstm, hxr, hs]
              | trylater => exact absurd hs hser
    simp only [writeobject_loop, hstep,
      ih (fun o ho => h o (List.mem_cons_of_mem _ ho)), List.map_cons, List.foldr_cons,
      List.sum_cons]

theorem writeobject_continue_on_error_witness :
    writeobject_loop true true demo_objs =
      Except.ok ("A" ++ placeholder 2 0 ++ "B", 1) := by
  have h := writeobject_continue_on_error_amended true demo_objs (by decide)
  exact h.trans (by decide)

/-! ### Claim C9 (counterexample) -/

/-- C9 (counterexample): the free-list build increments the generation of a
visited entry without any modulo (`opts.gen_list[num]++`): entry 0 with
generation 65535 becomes 65536, not `(65535 + 1) mod 65535 = 1`. -/
theorem free_list_gen_no_modulo :
    (construct_free_list (fun n => if n = 0 then 0 else 1) 2 (fun _ => 0)
          (fun _ => 65535)).2.1 0 = 65536 ∧
      (65535 + 1) % 65535 ≠ 65536 := by decide

/-! ### Claim C10 -/

/-- C10 (counterexample): an incremental save of a document with no
incremental sections returns early (pdf-write.c line 2716) after
`doc->freeze_updates = 1` but before the `fz_try`/`fz_always` region that
clears the flag: after the call the flag is still set. -/
theorem freeze_updates_counterexample :
    pdf_save_document
        { doc_present := true, do_incremental := true, do_garbage := 0, do_linear := false
          do_clean := false, clean_fails := false, num_incremental_sections := 0
          open_ok := true, body_fails := false } false =
      (true, SaveOutcome.earlyNoChanges) := by decide

/-- C10 (amended): `pdf_save_document` sets the freeze-updates flag on
entry and clears it on every exit path that reaches the main
`fz_try`/`fz_always` region — normal completion and any error inside the
body; but the exits between setting the flag and entering that region —
the sanitize failure, the incremental "no changes" early return and the
output-open failure — leave the flag set, and the exits before the flag is
set (null document, configuration errors) leave it untouched. -/
theorem freeze_updates_amended (cfg : SaveCfg) (freeze0 : Bool) :
    ((pdf_save_document cfg freeze0).2 = SaveOutcome.completed ∨
        (pdf_save_document cfg freeze0).2 = SaveOutcome.bodyError →
      (pdf_save_document cfg freeze0).1 = false) ∧
    ((pdf_save_document cfg freeze0).2 = SaveOutcome.cleanError ∨
        (pdf_save_document cfg freeze0).2 = SaveOutcome.earlyNoChanges ∨
        (pdf_save_document cfg freeze0).2 = SaveOutcome.openError →
      (pdf_save_document cfg freeze0).1 = true) ∧
    ((pdf_save_document cfg freeze0).2 = SaveOutcome.earlyNullDoc ∨
        (pdf_save_document cfg freeze0).2 = SaveOutcome.configErrorGarbage ∨
        (pdf_save_document cfg freeze0).2 = SaveOutcome.configErrorLinear →
      (pdf_save_document cfg freeze0).1 = freeze0) := by
  unfold pdf_save_document
  split_ifs <;> simp

theorem freeze_updates_amended_witness :
    (pdf_save_document save_demo_cfg false).1 = false :=
  (freeze_updates_amended save_demo_cfg false).1 (Or.inl (by decide))

/-! ### Claim C1 -/

theorem removeduplicate_inner_eq {α : Type} [DecidableEq α] (d : DedupDoc α) (num : Nat) :
    ∀ (others : List Nat) (st : DedupState), (∀ o ∈ others, o < num) →
      removeduplicate_inner d num others st =
        if st.use_list num = 0 then st
        else
          match others.find?
              (fun other => st.use_list other ≠ 0 && dedupe_equal d other num) with
          | none => st
          | some other => dedupe_merge st other num := by
  intro others
  induction others with
  | nil =>
    intro st _
    simp only [removeduplicate_inner, List.find?_nil]
    split <;> rfl
  | cons other rest ih =>
    intro st hlt
    have hon : other < num := hlt other (List.mem_cons_self _ _)
    have hne : num ≠ other := by omega
    have hrest : ∀ o ∈ rest, o < num := fun o ho => hlt o (List.mem_cons_of_mem _ ho)
    have hmin1 : min num other = other := Nat.min_eq_right (Nat.le_of_lt hon)
    have hmax1 : max num other = num := Nat.max_eq_left (Nat.le_of_lt hon)
    have hmin2 : min other num = other := Nat.min_eq_left (Nat.le_of_lt hon)
    have hmax2 : max other num = num := Nat.max_eq_right (Nat.le_of_lt hon)
    by_cases hu : st.use_list num = 0
    · simp only [removeduplicate_inner]
      rw [if_pos (Or.inr (Or.inl hu)), ih st hrest, if_pos hu, if_pos hu]
    · by_cases huo : st.use_list other = 0
      · simp only [removeduplicate_inner]
        rw [if_pos (Or.inr (Or.inr huo)), ih st hrest, if_neg hu, if_neg hu,
          List.find?_cons_of_neg _ (by simp [huo])]
      · have hcond : ¬(num = other ∨ st.use_list num = 0 ∨ st.use_list other = 0) := by
          push_neg
          exact ⟨hne, hu, huo⟩
        simp only [removeduplicate_inner, if_neg hcond]
        cases hsa : d.isStream num <;> cases hsb : d.isStream other
        · -- neither is a stream
          by_cases heq : d.objval num = d.objval other
          · rw [List.find?_cons_of_pos _ (by simp [dedupe_equal, huo, hsa, hsb, heq.symm])]
            simp [hsa, hsb, heq, hu, dedupe_merge, hmin1, hmax1, hmin2, hmax2]
          · have heq2 : ¬(d.objval other = d.objval num) := fun h => heq h.symm
            rw [ih st hrest, if_neg hu, if_neg hu,
              List.find?_cons_of_neg _ (by simp [dedupe_equal, hsa, hsb, heq2])]
            simp [hsa, hsb, heq]
        · -- num is not a stream, other is one
          rw [ih st hrest, if_neg hu, if_neg hu,
            List.find?_cons_of_neg _ (by simp [dedupe_equal, hsa, hsb])]
          simp [hsa, hsb]
        · -- num is a stream, other is not
          rw [ih st hrest, if_neg hu, if_neg hu,
            List.find?_cons_of_neg _ (by simp [dedupe_equal, hsa, hsb])]
          simp [hsa, hsb]
        · -- both are streams
          by_cases hg : 4 ≤ d.do_garbage
          · by_cases heq : d.objval num = d.objval other
            · by_cases hraw : d.rawbuf num = d.rawbuf other
              · rw [List.find?_cons_of_pos _
                  (by simp [dedupe_equal, huo, hsa, hsb, heq.symm, hg, hraw.symm])]
                simp [hsa, hsb, hg, heq, hraw, hu, dedupe_merge, hmin1, hmax1, hmin2,
                  hmax2]
              · have hraw2 : ¬(d.rawbuf other = d.rawbuf num) := fun h => hraw h.symm
                rw [ih st hrest, if_neg hu, if_neg hu,
                  List.find?_cons_of_neg _ (by simp [dedupe_equal, hsa, hsb, hraw2])]
                simp [hsa, hsb, hg, heq, hraw]
            · have heq2 : ¬(d.objval other = d.objval num) := fun h => heq h.symm
              rw [ih st hrest, if_neg hu, if_neg hu,
                List.find?_cons_of_neg _ (by simp [dedupe_equal, hsa, hsb, heq2])]
              simp [hsa, hsb, hg, heq]
          · rw [ih st hrest, if_neg hu, if_neg hu,
              List.find?_cons_of_neg _ (by simp [dedupe_equal, hsa, hsb, hg])]
            simp [hsa, hsb, hg]

/-! ### Claim C2 (amended) -/

theorem range1_concat (k : Nat) : List.range' 1 (k + 1) = List.range' 1 k ++ [k + 1] := by
  have h := @List.range'_concat 1 1 k
  simpa [Nat.add_comm] using h

theorem kept_count_zero (use r0 : Nat → Nat) : kept_count use r0 0 = 0 := rfl

theorem kept_count_succ (use r0 : Nat → Nat) (k : Nat) :
    kept_count use r0 (k + 1) =
      kept_count use r0 k + (if use (r0 (k + 1)) ≠ 0 ∧ r0 (k + 1) = k + 1 then 1 else 0) := by
  unfold kept_count
  rw [range1_concat, List.filter_append, List.length_append]
  congr 1
  by_cases h1 : use (r0 (k + 1)) = 0
  · simp [h1]
  · by_cases h2 : r0 (k + 1) = k + 1
    · have h1b : ¬use (k + 1) = 0 := h2 ▸ h1
      simp [List.filter_cons, List.filter_nil, h1, h2, h1b]
    · simp [List.filter_cons, List.filter_nil, h1, h2]

theorem kept_count_le (use r0 : Nat → Nat) (k : Nat) : kept_count use r0 k ≤ k := by
  induction k with
  | zero => simp [kept_count_zero]
  | succ k ih =>
    rw [kept_count_succ]
    split <;> omega

theorem kept_count_mono (use r0 : Nat → Nat) {k m : Nat} (h : k ≤ m) :
    kept_count use r0 k ≤ kept_count use r0 m := by
  induction m with
  | zero => simp_all
  | succ m ih =>
    rcases Nat.lt_or_ge k (m + 1) with hk | hk
    · have := ih (by omega)
      rw [kept_count_succ]
      split <;> omega
    · have : k = m + 1 := by omega
      subst this
      exact Nat.le_refl _

theorem kept_count_lt_of_kept (use r0 : Nat → Nat) {j m : Nat} (h1 : 1 ≤ j) (h2 : j ≤ m)
    (hu : use (r0 j) ≠ 0) (hj : r0 j = j) :
    kept_count use r0 (j - 1) < kept_count use r0 m := by
  have hsucc : kept_count use r0 j = kept_count use r0 (j - 1) + 1 := by
    have hj1 : j = (j - 1) + 1 := by omega
    rw [hj1, kept_count_succ]
    rw [← hj1]
    have hu2 : ¬use j = 0 := hj ▸ hu
    simp [hj, hu2]
  have := kept_count_mono use r0 h2
  omega

theorem compactxref_invariant (use r0 rev rg : Nat → Nat) (N : Nat)
    (hInv : DedupeInv use r0 N) :
    ∀ k, k ≤ N - 1 →
      (((List.range' 1 k).foldl (compactxref_step use)
          { renumber_map := r0, rev_renumber_map := rev, rev_gen_list := rg,
            newnum := 1 }).newnum = 1 + kept_count use r0 k) ∧
      (∀ j, (j = 0 ∨ k < j) →
        ((List.range' 1 k).foldl (compactxref_step use)
          { renumber_map := r0, rev_renumber_map := rev, rev_gen_list := rg,
            newnum := 1 }).renumber_map j = r0 j) ∧
      (∀ j, 1 ≤ j → j ≤ k → use (r0 j) = 0 →
        ((List.range' 1 k).foldl (compactxref_step use)
          { renumber_map := r0, rev_renumber_map := rev, rev_gen_list := rg,
            newnum := 1 }).renumber_map j = 0) ∧
      (∀ j, 1 ≤ j → j ≤ k → use (r0 j) ≠ 0 → r0 j = j →
        ((List.range' 1 k).foldl (compactxref_step use)
          { renumber_map := r0, rev_renumber_map := rev, rev_gen_list := rg,
            newnum := 1 }).renumber_map j = 1 + kept_count use r0 (j - 1)) ∧
      (∀ j, 1 ≤ j → j ≤ k → use (r0 j) ≠ 0 → r0 j ≠ j →
        ((List.range' 1 k).foldl (compactxref_step use)
          { renumber_map := r0, rev_renumber_map := rev, rev_gen_list := rg,
            newnum := 1 }).renumber_map j = 1 + kept_count use r0 (r0 j - 1)) := by
  intro k
  induction k with
  | zero =>
    intro _
    refine ⟨by simp [kept_count_zero], fun j _ => rfl, ?_, ?_, ?_⟩ <;>
      (intro j h1 h2; omega)
  | succ k ih =>
    intro hk
    obtain ⟨ih1, ih2, ih3, ih4, ih5⟩ := ih (by omega)
    set st := (List.range' 1 k).foldl (compactxref_step use)
      { renumber_map := r0, rev_renumber_map := rev, rev_gen_list := rg,
        newnum := 1 } with hst
    rw [range1_concat, List.foldl_append, List.foldl_cons, List.foldl_nil, ← hst]
    have hr0 : st.renumber_map (k + 1) = r0 (k + 1) := ih2 (k + 1) (Or.inr (by omega))
    have hkN : k + 1 < N := by omega
    by_cases hu : use (r0 (k + 1)) = 0
    · have hstep :
          compactxref_step use st (k + 1) =
            { st with renumber_map := Function.update st.renumber_map (k + 1) 0 } := by
        unfold compactxref_step
        rw [if_pos (by rw [hr0]; exact hu)]
      rw [hstep]
      refine ⟨?_, ?_, ?_, ?_, ?_⟩
      · simp only [kept_count_succ]
        rw [if_neg (by tauto)]
        simpa using ih1
      · intro j hj
        have hjne : j ≠ k + 1 := by omega
        simp only [Function.update_noteq hjne]
        exact ih2 j (by omega)
      · intro j h1 h2 h3
        by_cases hje : j = k + 1
        · subst hje; simp
        · simp only [Function.update_noteq hje]
          exact ih3 j h1 (by omega) h3
      · intro j h1 h2 h3 h4
        have hje : j ≠ k + 1 := by rintro rfl; exact h3 hu
        simp only [Function.update_noteq hje]
        exact ih4 j h1 (by omega) h3 h4
      · intro j h1 h2 h3 h4
        have hje : j ≠ k + 1 := by rintro rfl; exact h3 hu
        simp only [Function.update_noteq hje]
        exact ih5 j h1 (by omega) h3 h4
    · by_cases hmov : r0 (k + 1) = k + 1
      · have hstep :
            compactxref_step use st (k + 1) =
              { renumber_map := Function.update st.renumber_map (k + 1) st.newnum
                rev_renumber_map :=
                  Function.update st.rev_renumber_map st.newnum (st.rev_renumber_map (k + 1))
                rev_gen_list :=
                  Function.update st.rev_gen_list st.newnum (st.rev_gen_list (k + 1))
                newnum := st.newnum + 1 } := by
          unfold compactxref_step
          rw [if_neg (by rw [hr0]; exact hu), if_pos (by rw [hr0]; exact hmov)]
        rw [hstep]
        refine ⟨?_, ?_, ?_, ?_, ?_⟩
        · simp only [kept_count_succ]
          rw [if_pos ⟨hu, hmov⟩]
          simp only [ih1]
          omega
        · intro j hj
          have hjne : j ≠ k + 1 := by omega
          simp only [Function.update_noteq hjne]
          exact ih2 j (by omega)
        · intro j h1 h2 h3
          have hje : j ≠ k + 1 := by rintro rfl; exact hu h3
          simp only [Function.update_noteq hje]
          exact ih3 j h1 (by omega) h3
        · intro j h1 h2 h3 h4
          by_cases hje : j = k + 1
          · subst hje
            simp only [Function.update_same, ih1]
            simp
          · simp only [Function.update_noteq hje]
            exact ih4 j h1 (by omega) h3 h4
        · intro j h1 h2 h3 h4
          have hje : j ≠ k + 1 := by rintro rfl; exact h4 hmov
          simp only [Function.update_noteq hje]
          exact ih5 j h1 (by omega) h3 h4
      · obtain ⟨hle, hprop⟩ := hInv (k + 1) (by omega) hkN
        obtain ⟨ht1, ht2, ht3⟩ := hprop hmov
        have htk : r0 (k + 1) ≤ k := by omega
        have htval : st.renumber_map (r0 (k + 1)) =
            1 + kept_count use r0 (r0 (k + 1) - 1) :=
          ih4 (r0 (k + 1)) ht1 htk (by rw [ht2]; exact ht3) ht2
        have hstep :
            compactxref_step use st (k + 1) =
              { st with
                renumber_map :=
                  Function.update st.renumber_map (k + 1)
                    (st.renumber_map (st.renumber_map (k + 1))) } := by
          unfold compactxref_step
          rw [if_neg (by rw [hr0]; exact hu), if_neg (by rw [hr0]; exact hmov)]
        rw [hstep]
        refine ⟨?_, ?_, ?_, ?_, ?_⟩
        · simp only [kept_count_succ]
          rw [if_neg (by tauto)]
          simpa using ih1
        · intro j hj
          have hjne : j ≠ k + 1 := by omega
          simp only [Function.update_noteq hjne]
          exact ih2 j (by omega)
        · intro j h1 h2 h3
          have hje : j ≠ k + 1 := by rintro rfl; exact hu h3
          simp only [Function.update_noteq hje]
          exact ih3 j h1 (by omega) h3
        · intro j h1 h2 h3 h4
          have hje : j ≠ k + 1 := by rintro rfl; exact hmov h4
          simp only [Function.update_noteq hje]
          exact ih4 j h1 (by omega) h3 h4
        · intro j h1 h2 h3 h4
          by_cases hje : j = k + 1
          · subst hje
            simp only [Function.update_same, hr0, htval]
          · simp only [Function.update_noteq hje]
            exact ih5 j h1 (by omega) h3 h4

/-- C2 (amended): after compaction every id `i ∈ [1, N)` satisfies
`renumber[i] ≤ i`; `renumber[i]` is 0 or lies in `[1, N')` where `N'` is
the final value of the monotone new-id counter; ids whose (post-dedupe)
target is unused map to 0; and the used, unmoved ids receive consecutive
new ids in ascending sweep order (the `1 + kept_count` formula), while a
moved id copies the new id of its smaller target.  The idempotence part of
the original claim holds of the post-dedupe map (it is part of
`DedupeInv`) but not of the compacted map. -/
theorem compactxref_amended (use r0 rev rg : Nat → Nat) (N : Nat)
    (hInv : DedupeInv use r0 N) :
    ∀ i, 1 ≤ i → i < N →
      ((compactxref use N r0 rev rg).renumber_map i ≤ i ∧
        ((compactxref use N r0 rev rg).renumber_map i = 0 ∨
          (1 ≤ (compactxref use N r0 rev rg).renumber_map i ∧
            (compactxref use N r0 rev rg).renumber_map i <
              (compactxref use N r0 rev rg).newnum)) ∧
        (use (r0 i) = 0 → (compactxref use N r0 rev rg).renumber_map i = 0) ∧
        (use (r0 i) ≠ 0 → r0 i = i →
          (compactxref use N r0 rev rg).renumber_map i =
            1 + kept_count use r0 (i - 1)) ∧
        (use (r0 i) ≠ 0 → r0 i ≠ i →
          (compactxref use N r0 rev rg).renumber_map i =
            1 + kept_count use r0 (r0 i - 1))) := by
  intro i h1 h2
  obtain ⟨inv1, inv2, inv3, inv4, inv5⟩ :=
    compactxref_invariant use r0 rev rg N hInv (N - 1) (Nat.le_refl _)
  have hiN : i ≤ N - 1 := by omega
  have hcompact :
      compactxref use N r0 rev rg =
        (List.range' 1 (N - 1)).foldl (compactxref_step use)
          { renumber_map := r0, rev_renumber_map := rev, rev_gen_list := rg,
            newnum := 1 } := rfl
  rw [hcompact]
  by_cases hu : use (r0 i) = 0
  · have h0 := inv3 i h1 hiN hu
    refine ⟨by omega, Or.inl h0, fun _ => h0, ?_, ?_⟩
    · intro hc _; exact absurd hu hc
    · intro hc _; exact absurd hu hc
  · by_cases hmov : r0 i = i
    · have hval := inv4 i h1 hiN hu hmov
      have hle := kept_count_le use r0 (i - 1)
      have hlt := kept_count_lt_of_kept use r0 h1 hiN hu hmov
      refine ⟨by omega, Or.inr ⟨by omega, ?_⟩, fun hc => absurd hc hu, fun _ _ => hval,
        fun _ hc => absurd hmov hc⟩
      rw [inv1, hval]
      omega
    · obtain ⟨hle0, hprop⟩ := hInv i h1 h2
      obtain ⟨ht1, ht2, ht3⟩ := hprop hmov
      have hval := inv5 i h1 hiN hu hmov
      have htk : r0 i ≤ N - 1 := by omega
      have hle := kept_count_le use r0 (r0 i - 1)
      have hlt := kept_count_lt_of_kept use r0 ht1 htk (by rw [ht2]; exact ht3) ht2
      refine ⟨by omega, Or.inr ⟨by omega, ?_⟩, fun hc => absurd hc hu,
        fun _ hc => absurd hc hmov, fun _ _ => hval⟩
      rw [inv1, hval]
      omega

theorem compactxref_amended_witness :
    (compactxref (fun n => if n = 1 then 0 else 1) 3 id id id).renumber_map 2 ≤ 2 ∧
      (compactxref (fun n => if n = 1 then 0 else 1) 3 id id id).renumber_map 2 =
        1 + kept_count (fun n => if n = 1 then 0 else 1) id 1 :=
  ⟨(compactxref_amended (fun n => if n = 1 then 0 else 1) id id id 3
      (fun i _ _ => ⟨Nat.le_refl i, fun hne => absurd rfl hne⟩) 2 (by decide)
      (by decide)).1,
    (compactxref_amended (fun n => if n = 1 then 0 else 1) id id id 3
      (fun i _ _ => ⟨Nat.le_refl i, fun hne => absurd rfl hne⟩) 2 (by decide)
      (by decide)).2.2.2.1 (by decide) rfl⟩

/-! ### Claim C9 (amended) -/

theorem follow_chain_of_chain (ofs_list : Nat → Nat) :
    ∀ (xs : List Nat) (x fuel : Nat), IsChain ofs_list (x :: xs) →
      (∀ y ∈ xs, y ≠ 0) → (x :: xs).length ≤ fuel →
      follow_chain ofs_list fuel x = some (x :: xs) := by
  intro xs
  induction xs with
  | nil =>
    intro x fuel hch hne hf
    match fuel, hf with
    | f + 1, _ =>
      have hx : ofs_list x = 0 := hch
      simp [follow_chain, hx]
  | cons y rest ih =>
    intro x fuel hch hne hf
    obtain ⟨h1, h2⟩ := hch
    match fuel, hf with
    | f + 1, hf =>
      have hy0 : y ≠ 0 := hne y (List.mem_cons_self _ _)
      have hlen : (y :: rest).length ≤ f := by
        simpa using Nat.lt_succ_iff.mp (Nat.lt_of_lt_of_le (by simp) hf)
      simp only [follow_chain, h1, if_neg hy0]
      rw [ih y f h2 (fun z hz => hne z (List.mem_cons_of_mem _ hz)) hlen]
      rfl

theorem mem_of_getLast?_eq {l : List Nat} {a : Nat} (h : l.getLast? = some a) : a ∈ l := by
  obtain ⟨hne, heq⟩ := List.mem_getLast?_eq_getLast (by simpa [Option.mem_def] using h)
  rw [heq]
  exact List.getLast_mem hne

theorem IsChain_extend (ofs_list : Nat → Nat) (z : Nat) :
    ∀ (xs : List Nat) (lastx : Nat), IsChain ofs_list xs →
      xs.getLast? = some lastx → List.Pairwise (· < ·) xs →
      (∀ a ∈ xs, a < z) → ofs_list z = 0 →
      IsChain (Function.update ofs_list lastx z) (xs ++ [z]) := by
  intro xs
  induction xs with
  | nil => intro lastx _ hl; simp at hl
  | cons x rest ih =>
    intro lastx hch hl hsort hlt hz
    cases rest with
    | nil =>
      have hx : x = lastx := by simpa using hl
      subst hx
      have hxz : z ≠ x := by have := hlt x (List.mem_cons_self _ _); omega
      refine ⟨?_, ?_⟩
      · simp
      · show Function.update ofs_list x z z = 0
        rw [Function.update_noteq hxz]
        exact hz
    | cons y rest2 =>
      obtain ⟨h1, h2⟩ := hch
      have hl2 : (y :: rest2).getLast? = some lastx := by
        rw [← List.getLast?_cons_cons]
        exact hl
      have hmem : lastx ∈ y :: rest2 := mem_of_getLast?_eq hl2
      have hxlast : x ≠ lastx := by
        have := (List.pairwise_cons.mp hsort).1 lastx hmem
        omega
      refine ⟨?_, ?_⟩
      · rw [Function.update_noteq hxlast]
        exact h1
      · exact ih lastx h2 hl2 (List.pairwise_cons.mp hsort).2
          (fun a ha => hlt a (List.mem_cons_of_mem _ ha)) hz

theorem free_ids_succ (use_list : Nat → Nat) (N : Nat) :
    free_ids use_list (N + 1) =
      free_ids use_list N ++ (if use_list N = 0 then [N] else []) := by
  unfold free_ids
  rw [List.range_succ, List.filter_append]
  congr 1
  by_cases h : use_list N = 0 <;> simp [h]

theorem free_ids_lt (use_list : Nat → Nat) (N : Nat) :
    ∀ a ∈ free_ids use_list N, a < N := by
  intro a ha
  have := List.mem_filter.mp ha
  exact List.mem_range.mp this.1

theorem free_ids_sorted (use_list : Nat → Nat) (N : Nat) :
    List.Pairwise (· < ·) (free_ids use_list N) :=
  (List.pairwise_lt_range N).filter _

theorem construct_free_list_invariant (use_list ofs_list gen_list : Nat → Nat)
    (hu0 : use_list 0 = 0) (hofs : ∀ i, use_list i = 0 → ofs_list i = 0) :
    ∀ N, 1 ≤ N →
      ∃ tl, free_ids use_list N = 0 :: tl ∧
        IsChain (construct_free_list use_list N ofs_list gen_list).1 (0 :: tl) ∧
        (0 :: tl).getLast? =
          some (construct_free_list use_list N ofs_list gen_list).2.2 ∧
        (∀ j, N ≤ j →
          (construct_free_list use_list N ofs_list gen_list).1 j = ofs_list j) ∧
        (∀ j, j < N → use_list j = 0 →
          (construct_free_list use_list N ofs_list gen_list).2.1 j = gen_list j + 1) ∧
        (∀ j, use_list j ≠ 0 ∨ N ≤ j →
          (construct_free_list use_list N ofs_list gen_list).2.1 j = gen_list j) := by
  intro N
  induction N with
  | zero => intro h; omega
  | succ N ih =>
    intro _
    by_cases hN0 : N = 0
    · subst hN0
      have hrange1 : List.range 1 = [0] := by decide
      refine ⟨[], ?_, ?_, ?_, ?_, ?_, ?_⟩
      · simp [free_ids, hrange1, hu0]
      · show (construct_free_list use_list 1 ofs_list gen_list).1 0 = 0
        simp [construct_free_list, hrange1, hu0]
      · show some 0 = some (construct_free_list use_list 1 ofs_list gen_list).2.2
        simp [construct_free_list, hrange1, hu0]
      · intro j hj
        have hj0 : j ≠ 0 := by omega
        simp [construct_free_list, hrange1, hu0, Function.update_noteq hj0]
      · intro j hj hu
        have hj0 : j = 0 := by omega
        subst hj0
        simp [construct_free_list, hrange1, hu0]
      · intro j hj
        have hj0 : j ≠ 0 := by
          rcases hj with hj | hj
          · rintro rfl; exact hj hu0
          · omega
        simp [construct_free_list, hrange1, hu0, Function.update_noteq hj0]
    · obtain ⟨tl, htl, hch, hlast, hout, hg1, hg2⟩ := ih (by omega)
      have hstep :
          construct_free_list use_list (N + 1) ofs_list gen_list =
            (if use_list N = 0 then
              (Function.update (construct_free_list use_list N ofs_list gen_list).1
                (construct_free_list use_list N ofs_list gen_list).2.2 N,
               Function.update (construct_free_list use_list N ofs_list gen_list).2.1 N
                ((construct_free_list use_list N ofs_list gen_list).2.1 N + 1),
               N)
            else construct_free_list use_list N ofs_list gen_list) := by
        show ((List.range (N + 1)).foldl _ _ = _)
        rw [List.range_succ, List.foldl_append, List.foldl_cons, List.foldl_nil]
        rfl
      by_cases huN : use_list N = 0
      · rw [hstep, if_pos huN]
        dsimp only
        have hlastmem : (construct_free_list use_list N ofs_list gen_list).2.2 ∈ 0 :: tl :=
          mem_of_getLast?_eq hlast
        have hlastlt : (construct_free_list use_list N ofs_list gen_list).2.2 < N := by
          have := free_ids_lt use_list N _ (htl ▸ hlastmem)
          exact this
        refine ⟨tl ++ [N], ?_, ?_, ?_, ?_, ?_, ?_⟩
        · rw [free_ids_succ, if_pos huN, htl]
          rfl
        · have hext := IsChain_extend
            (construct_free_list use_list N ofs_list gen_list).1 N (0 :: tl)
            (construct_free_list use_list N ofs_list gen_list).2.2 hch hlast
            (htl ▸ free_ids_sorted use_list N)
            (fun a ha => free_ids_lt use_list N a (htl ▸ ha))
            (by rw [hout N (Nat.le_refl N)]; exact hofs N huN)
          simpa using hext
        · show ((0 :: tl) ++ [N]).getLast? = some N
          exact List.getLast?_concat _
        · intro j hj
          have hj1 : j ≠ (construct_free_list use_list N ofs_list gen_list).2.2 := by omega
          rw [Function.update_noteq hj1]
          exact hout j (by omega)
        · intro j hj hu
          by_cases hje : j = N
          · rw [hje, Function.update_same, hg2 N (Or.inr (Nat.le_refl N))]
          · rw [Function.update_noteq hje]
            exact hg1 j (by omega) hu
        · intro j hj
          have hje : j ≠ N := by
            rcases hj with hj | hj
            · rintro rfl; exact hj huN
            · omega
          rw [Function.update_noteq hje]
          refine hg2 j ?_
          rcases hj with hj | hj
          · exact Or.inl hj
          · exact Or.inr (by omega)
      · rw [hstep, if_neg huN]
        refine ⟨tl, ?_, hch, hlast, ?_, ?_, ?_⟩
        · rw [free_ids_succ, if_neg huN, htl, List.append_nil]
        · intro j hj
          exact hout j (by omega)
        · intro j hj hu
          have hje : j ≠ N := by rintro rfl; exact huN hu
          exact hg1 j (by omega) hu
        · intro j hj
          refine hg2 j ?_
          rcases hj with hj | hj
          · exact Or.inl hj
          · by_cases hje : j = N
            · subst hje; exact Or.inl huN
            · exact Or.inr (by omega)

/-- C9 (amended): the free-list build chains unused ids in ascending order:
starting at entry 0 and following `ofs[k]` as the next free id visits
exactly the set of entries with `use == 0`, in ascending order, and
terminates at 0; each visited entry's `gen` counter is incremented by one
(without any modulo), and other entries' counters are untouched. -/
theorem free_list_chain_amended (use_list ofs_list gen_list : Nat → Nat) (N : Nat)
    (hN : 1 ≤ N) (hu0 : use_list 0 = 0) (hofs : ∀ i, use_list i = 0 → ofs_list i = 0) :
    follow_chain (construct_free_list use_list N ofs_list gen_list).1 N 0 =
        some (free_ids use_list N) ∧
      (∀ j, j < N → use_list j = 0 →
        (construct_free_list use_list N ofs_list gen_list).2.1 j = gen_list j + 1) ∧
      (∀ j, j < N → use_list j ≠ 0 →
        (construct_free_list use_list N ofs_list gen_list).2.1 j = gen_list j) := by
  obtain ⟨tl, htl, hch, hlast, hout, hg1, hg2⟩ :=
    construct_free_list_invariant use_list ofs_list gen_list hu0 hofs N hN
  refine ⟨?_, hg1, fun j hj hu => hg2 j (Or.inl hu)⟩
  rw [htl]
  apply follow_chain_of_chain _ tl 0 N hch
  · intro y hy
    have hsort : List.Pairwise (· < ·) (0 :: tl) := htl ▸ free_ids_sorted use_list N
    have := (List.pairwise_cons.mp hsort).1 y hy
    omega
  · have hlen : (0 :: tl).length ≤ N := by
      rw [← htl]
      calc (free_ids use_list N).length ≤ (List.range N).length :=
        List.length_filter_le _ _
      _ = N := List.length_range N
    exact hlen

theorem free_list_chain_witness :
    follow_chain
        (construct_free_list (fun n => if n = 0 ∨ n = 2 then 0 else 1) 4 (fun _ => 0)
          (fun n => if n = 0 then 65535 else 7)).1 4 0 =
      some [0, 2] := by
  have h := (free_list_chain_amended (fun n => if n = 0 ∨ n = 2 then 0 else 1)
    (fun _ => 0) (fun n => if n = 0 then 65535 else 7) 4 (by decide) (by decide)
    (fun i _ => rfl)).1
  exact h.trans (by decide)

/-! ### Claim C5 (amended) -/

theorem dowriteobject_live (cfg : EmitCfg) (pass n : Nat) (st : EmitState)
    (ht : cfg.etype n ≠ XrefType.free) (hu : st.use_list n ≠ 0) :
    (dowriteobject cfg pass n st).pos =
        (if 0 < pass then padto st.pos (st.ofs_list n) else st.pos) + cfg.obj_len pass n ∧
      (dowriteobject cfg pass n st).ofs_list =
        Function.update st.ofs_list n
          (if 0 < pass then padto st.pos (st.ofs_list n) else st.pos) ∧
      (dowriteobject cfg pass n st).use_list = st.use_list ∧
      (dowriteobject cfg pass n st).first_xref_offset = st.first_xref_offset ∧
      (dowriteobject cfg pass n st).main_xref_offset = st.main_xref_offset := by
  rcases hety : cfg.etype n with _ | _ | _
  · exact absurd hety ht
  · simp only [dowriteobject, hety]
    rw [if_neg (by simp [hu])]
    by_cases hp : 0 < pass
    · simp [hp]
    · simp [hp]
  · simp only [dowriteobject, hety]
    rw [if_neg (by simp [hu])]
    by_cases hp : 0 < pass
    · simp [hp]
    · simp [hp]

theorem run0_facts (cfg : EmitCfg) :
    ∀ (nums : List Nat) (st : EmitState), nums.Nodup →
      (∀ n ∈ nums, cfg.etype n ≠ XrefType.free) →
      (∀ n ∈ nums, st.use_list n ≠ 0) →
      (run_objs cfg 0 nums st).use_list = st.use_list ∧
        (run_objs cfg 0 nums st).first_xref_offset = st.first_xref_offset ∧
        (run_objs cfg 0 nums st).main_xref_offset = st.main_xref_offset ∧
        st.pos ≤ (run_objs cfg 0 nums st).pos ∧
        (∀ m, m ∉ nums → (run_objs cfg 0 nums st).ofs_list m = st.ofs_list m) ∧
        (∀ n ∈ nums,
          (run_objs cfg 0 nums st).ofs_list n + cfg.obj_len 0 n ≤
            (run_objs cfg 0 nums st).pos ∧
          st.pos ≤ (run_objs cfg 0 nums st).ofs_list n) := by
  intro nums
  induction nums with
  | nil =>
    intro st _ _ _
    exact ⟨rfl, rfl, rfl, Nat.le_refl _, fun m _ => rfl, fun n hn => absurd hn (by simp)⟩
  | cons n rest ih =>
    intro st hnd hty hus
    have hnr : n ∉ rest := (List.nodup_cons.mp hnd).1
    obtain ⟨hpos1, hofs1, huse1, hfxo1, hmxo1⟩ :=
      dowriteobject_live cfg 0 n st (hty n (List.mem_cons_self _ _))
        (hus n (List.mem_cons_self _ _))
    have hrun : run_objs cfg 0 (n :: rest) st =
        run_objs cfg 0 rest (dowriteobject cfg 0 n st) := rfl
    obtain ⟨ih1, ih2, ih3, ih4, ih5, ih6⟩ :=
      ih (dowriteobject cfg 0 n st) (List.nodup_cons.mp hnd).2
        (fun m hm => hty m (List.mem_cons_of_mem _ hm))
        (fun m hm => by
          rw [huse1]; exact hus m (List.mem_cons_of_mem _ hm))
    simp only [if_neg (by omega : ¬0 < 0)] at hpos1 hofs1
    refine ⟨?_, ?_, ?_, ?_, ?_, ?_⟩
    · rw [hrun, ih1, huse1]
    · rw [hrun, ih2, hfxo1]
    · rw [hrun, ih3, hmxo1]
    · rw [hrun]
      calc st.pos ≤ (dowriteobject cfg 0 n st).pos := by rw [hpos1]; omega
      _ ≤ _ := ih4
    · intro m hm
      rw [hrun, ih5 m (fun hc => hm (List.mem_cons_of_mem _ hc)), hofs1,
        Function.update_noteq (by rintro rfl; exact hm (List.mem_cons_self _ _))]
    · intro m hm
      rcases List.mem_cons.mp hm with rfl | hm2
      · have hofsm : (run_objs cfg 0 (m :: rest) st).ofs_list m = st.pos := by
          rw [hrun, ih5 m hnr, hofs1, Function.update_same]
        constructor
        · rw [hofsm, hrun]
          calc st.pos + cfg.obj_len 0 m = (dowriteobject cfg 0 m st).pos := hpos1.symm
          _ ≤ _ := ih4
        · rw [hofsm]
      · obtain ⟨hm6a, hm6b⟩ := ih6 m hm2
        refine ⟨by rw [hrun]; exact hm6a, ?_⟩
        rw [hrun]
        calc st.pos ≤ (dowriteobject cfg 0 n st).pos := by rw [hpos1]; omega
        _ ≤ _ := hm6b

theorem run_objs_adj_zero (cfg : EmitCfg) (nums : List Nat) (st : EmitState) :
    run_objs_adj cfg 0 nums st = run_objs cfg 1 nums st := by
  unfold run_objs_adj run_objs
  apply List.foldl_ext
  intro s n _
  rw [Nat.add_zero, Function.update_eq_self]

theorem sim_seg (cfg : EmitCfg) (adj : Nat) :
    ∀ (nums : List Nat) (stA stB : EmitState), nums.Nodup →
      (∀ n ∈ nums, cfg.etype n ≠ XrefType.free) →
      (∀ n ∈ nums, stA.use_list n ≠ 0) →
      (∀ n ∈ nums, stB.use_list n ≠ 0) →
      (∀ n ∈ nums, cfg.obj_len 1 n ≤ cfg.obj_len 0 n) →
      (∀ n ∈ nums, stB.ofs_list n = (run_objs cfg 0 nums stA).ofs_list n) →
      stB.pos ≤ stA.pos + adj →
      (run_objs_adj cfg adj nums stB).pos ≤ (run_objs cfg 0 nums stA).pos + adj ∧
        (∀ n ∈ nums, (run_objs_adj cfg adj nums stB).ofs_list n ≤
          (run_objs cfg 0 nums stA).ofs_list n + adj) ∧
        (∀ m, m ∉ nums →
          (run_objs_adj cfg adj nums stB).ofs_list m = stB.ofs_list m) ∧
        (run_objs_adj cfg adj nums stB).use_list = stB.use_list ∧
        (run_objs_adj cfg adj nums stB).first_xref_offset = stB.first_xref_offset ∧
        (run_objs_adj cfg adj nums stB).main_xref_offset = stB.main_xref_offset := by
  intro nums
  induction nums with
  | nil =>
    intro stA stB _ _ _ _ _ _ hpos
    exact ⟨hpos, fun n hn => absurd hn (by simp), fun m _ => rfl, rfl, rfl, rfl⟩
  | cons n rest ih =>
    intro stA stB hnd hty husA husB hlen hofs hpos
    have hnr : n ∉ rest := (List.nodup_cons.mp hnd).1
    have htyn := hty n (List.mem_cons_self _ _)
    have husAn := husA n (List.mem_cons_self _ _)
    have husBn := husB n (List.mem_cons_self _ _)
    -- pass-0 step
    obtain ⟨hA1, hA2, hA3, hA4, hA5⟩ := dowriteobject_live cfg 0 n stA htyn husAn
    simp only [if_neg (by omega : ¬0 < 0)] at hA1 hA2
    have hrunA : run_objs cfg 0 (n :: rest) stA =
        run_objs cfg 0 rest (dowriteobject cfg 0 n stA) := rfl
    have husA2 : ∀ m ∈ rest, (dowriteobject cfg 0 n stA).use_list m ≠ 0 := by
      intro m hm
      rw [hA3]
      exact husA m (List.mem_cons_of_mem _ hm)
    obtain ⟨hA01, hA02, hA03, hA04, hA05, hA06⟩ :=
      run0_facts cfg rest (dowriteobject cfg 0 n stA) (List.nodup_cons.mp hnd).2
        (fun m hm => hty m (List.mem_cons_of_mem _ hm)) husA2
    -- the pass-0 offset of n
    have hofsA : (run_objs cfg 0 (n :: rest) stA).ofs_list n = stA.pos := by
      rw [hrunA, hA05 n hnr, hA2, Function.update_same]
    -- pass-1 step
    have hofsBn : stB.ofs_list n = stA.pos := by rw [hofs n (List.mem_cons_self _ _), hofsA]
    have hstepB :
        run_objs_adj cfg adj (n :: rest) stB =
          run_objs_adj cfg adj rest
            (dowriteobject cfg 1 n
              { stB with
                ofs_list := Function.update stB.ofs_list n (stB.ofs_list n + adj) }) := rfl
    obtain ⟨hB1, hB2, hB3, hB4, hB5⟩ :=
      dowriteobject_live cfg 1 n
        { stB with ofs_list := Function.update stB.ofs_list n (stB.ofs_list n + adj) }
        htyn husBn
    simp only [if_pos (by omega : 0 < 1), Function.update_same] at hB1 hB2
    have hpadv : padto stB.pos (stB.ofs_list n + adj) = stA.pos + adj := by
      rw [hofsBn]; unfold padto; omega
    rw [hpadv] at hB1 hB2
    set stB1 := dowriteobject cfg 1 n
      { stB with ofs_list := Function.update stB.ofs_list n (stB.ofs_list n + adj) }
      with hstB1
    -- apply the induction hypothesis
    have hofsB2 : ∀ m ∈ rest, stB1.ofs_list m =
        (run_objs cfg 0 rest (dowriteobject cfg 0 n stA)).ofs_list m := by
      intro m hm
      have hmn : m ≠ n := by rintro rfl; exact hnr hm
      rw [hB2, Function.update_noteq hmn, Function.update_noteq hmn,
        hofs m (List.mem_cons_of_mem _ hm), hrunA]
    obtain ⟨ihp, ihofs, ihout, ihuse, ihfxo, ihmxo⟩ :=
      ih (dowriteobject cfg 0 n stA) stB1 (List.nodup_cons.mp hnd).2
        (fun m hm => hty m (List.mem_cons_of_mem _ hm)) husA2
        (fun m hm => by rw [hB3]; exact husB m (List.mem_cons_of_mem _ hm))
        (fun m hm => hlen m (List.mem_cons_of_mem _ hm)) hofsB2
        (by
          rw [hB1, hA1]
          have := hlen n (List.mem_cons_self _ _)
          omega)
    refine ⟨?_, ?_, ?_, ?_, ?_, ?_⟩
    · rw [hstepB, hrunA]
      exact ihp
    · intro m hm
      rcases List.mem_cons.mp hm with rfl | hm2
      · rw [hstepB, hrunA, ihout m hnr, hA05 m hnr, hB2, Function.update_same, hA2,
          Function.update_same]
      · rw [hstepB, hrunA]
        exact ihofs m hm2
    · intro m hm
      have hmn : m ≠ n := by rintro rfl; exact hm (List.mem_cons_self _ _)
      rw [hstepB, ihout m (fun hc => hm (List.mem_cons_of_mem _ hc)), hB2,
        Function.update_noteq hmn, Function.update_noteq hmn]
    · rw [hstepB, ihuse, hB3]
    · rw [hstepB, ihfxo, hB4]
    · rw [hstepB, ihmxo, hB5]

theorem writeobjects_zero_eq (cfg : EmitCfg) (st : EmitState) (hlin : cfg.do_linear = true) :
    writeobjects cfg 0 st =
      run_objs cfg 0 (List.range' 1 (cfg.start - 1))
        (run_objs cfg 0 (List.range' (cfg.start + 1) (cfg.xref_len - (cfg.start + 1)))
          (let st1 := dowriteobject cfg 0 cfg.start { st with pos := st.pos + cfg.header_len }
           let st2 := { st1 with first_xref_offset := st1.pos }
           { st2 with pos := st2.pos + cfg.first_xref_len 0 })) := by
  simp [writeobjects, run_objs, hlin]

theorem writeobjects_one_eq (cfg : EmitCfg) (st : EmitState) (hlin : cfg.do_linear = true) :
    writeobjects cfg 1 st =
      (let st1 := dowriteobject cfg 1 cfg.start { st with pos := st.pos + cfg.header_len }
       let st2 := { st1 with pos := padto st1.pos st1.first_xref_offset }
       let st3 := { st2 with pos := st2.pos + cfg.first_xref_len 1 }
       let st4 :=
         run_objs cfg 1 (List.range' (cfg.start + 1) (cfg.xref_len - (cfg.start + 1))) st3
       run_objs_adj cfg cfg.hintstream_len (List.range' 1 (cfg.start - 1))
         { st4 with
           pos :=
             padto st4.pos
               (if cfg.start = 1 then st4.main_xref_offset
                else st4.ofs_list 1 + cfg.hintstream_len) }) := by
  simp [writeobjects, run_objs, run_objs_adj, hlin]

theorem construct_free_list_ofs_live (use_list ofs_list gen_list : Nat → Nat) :
    ∀ N, (∀ n, 1 ≤ n → n < N → use_list n ≠ 0) →
      (construct_free_list use_list N ofs_list gen_list).2.2 = 0 ∧
        ∀ m, 1 ≤ m →
          (construct_free_list use_list N ofs_list gen_list).1 m = ofs_list m := by
  intro N
  induction N with
  | zero => exact fun _ => ⟨rfl, fun m _ => rfl⟩
  | succ k ih =>
    intro h
    obtain ⟨ih1, ih2⟩ := ih (fun n h1 h2 => h n h1 (by omega))
    have hsplit :
        construct_free_list use_list (k + 1) ofs_list gen_list =
          (fun (acc : (Nat → Nat) × (Nat → Nat) × Nat) num =>
              if use_list num = 0 then
                (Function.update acc.1 acc.2.2 num,
                 Function.update acc.2.1 num (acc.2.1 num + 1),
                 num)
              else acc)
            (construct_free_list use_list k ofs_list gen_list) k := by
      unfold construct_free_list
      rw [List.range_succ, List.foldl_append, List.foldl_cons, List.foldl_nil]
    have hstep :
        construct_free_list use_list (k + 1) ofs_list gen_list =
          if use_list k = 0 then
            (Function.update (construct_free_list use_list k ofs_list gen_list).1
               (construct_free_list use_list k ofs_list gen_list).2.2 k,
             Function.update (construct_free_list use_list k ofs_list gen_list).2.1 k
               ((construct_free_list use_list k ofs_list gen_list).2.1 k + 1),
             k)
          else construct_free_list use_list k ofs_list gen_list := by
      rw [hsplit]
    by_cases hk : use_list k = 0
    · have hk0 : k = 0 := by
        by_contra hne
        exact h k (by omega) (by omega) hk
      subst hk0
      rw [hstep]
      rw [if_pos hk]
      refine ⟨rfl, fun m hm => ?_⟩
      show Function.update (construct_free_list use_list 0 ofs_list gen_list).1
        (construct_free_list use_list 0 ofs_list gen_list).2.2 0 m = ofs_list m
      rw [ih1, Function.update_noteq (by omega), ih2 m hm]
    · rw [hstep]
      rw [if_neg hk]
      exact ⟨ih1, ih2⟩

/-- C5 (amended): in a linearized save, at the end of pass-1 emission every
tail-section object (new id in `[1, start)`) has its recorded offset
strictly BELOW `main_xref_offset`: the main xref of a linearized file sits
at the very end, after all objects.  Hypotheses: linear mode, `start`
within the xref, ids `[1, xref_len)` live and not of free type, pass-1
bodies no longer than the pass-0 placeholders (pass 0 prints
maximum-width placeholder offsets), nonempty pass-0 bodies in the tail
section, and emission starting at position 0. -/
theorem linear_tail_offsets_amended (cfg : EmitCfg) (st0 : EmitState)
    (hlin : cfg.do_linear = true)
    (hsN : cfg.start < cfg.xref_len)
    (hty : ∀ n, 1 ≤ n → n < cfg.xref_len → cfg.etype n ≠ XrefType.free)
    (hus : ∀ n, 1 ≤ n → n < cfg.xref_len → st0.use_list n ≠ 0)
    (hlen : ∀ n, 1 ≤ n → n < cfg.xref_len → cfg.obj_len 1 n ≤ cfg.obj_len 0 n)
    (hfx : cfg.first_xref_len 1 ≤ cfg.first_xref_len 0)
    (hlen0 : ∀ n, 1 ≤ n → n < cfg.start → 1 ≤ cfg.obj_len 0 n)
    (hp0 : st0.pos = 0) :
    ∀ i, 1 ≤ i → i < cfg.start →
      (pdf_save_linear cfg st0).ofs_list i <
        (pdf_save_linear cfg st0).main_xref_offset := by
  intro i hi1 his
  have hs2 : 2 ≤ cfg.start := by omega
  have hs1 : 1 ≤ cfg.start := by omega
  -- the two object segments
  have hmemT : ∀ n, n ∈ List.range' 1 (cfg.start - 1) ↔ 1 ≤ n ∧ n < cfg.start := by
    intro n
    rw [List.mem_range'_1]
    omega
  have hmemM : ∀ n,
      n ∈ List.range' (cfg.start + 1) (cfg.xref_len - (cfg.start + 1)) ↔
        cfg.start + 1 ≤ n ∧ n < cfg.xref_len := by
    intro n
    rw [List.mem_range'_1]
    omega
  have hndT : (List.range' 1 (cfg.start - 1)).Nodup :=
    List.nodup_range' _ _ 1 Nat.one_pos
  have hndM : (List.range' (cfg.start + 1) (cfg.xref_len - (cfg.start + 1))).Nodup :=
    List.nodup_range' _ _ 1 Nat.one_pos
  -- ===== pass 0 =====
  have hzero := writeobjects_zero_eq cfg st0 hlin
  simp only at hzero
  set stH : EmitState := { st0 with pos := st0.pos + cfg.header_len } with hstH
  set stS : EmitState := dowriteobject cfg 0 cfg.start stH with hstS
  obtain ⟨hS1, hS2, hS3, hS4, hS5⟩ :=
    dowriteobject_live cfg 0 cfg.start stH (hty cfg.start hs1 hsN) (hus cfg.start hs1 hsN)
  simp only [if_neg (by omega : ¬0 < 0)] at hS1 hS2
  set stX : EmitState :=
    { stS with first_xref_offset := stS.pos, pos := stS.pos + cfg.first_xref_len 0 } with hstX
  have huseX : stX.use_list = st0.use_list := by
    rw [hstX]
    exact hS3
  set stM : EmitState :=
    run_objs cfg 0 (List.range' (cfg.start + 1) (cfg.xref_len - (cfg.start + 1))) stX with hstM
  obtain ⟨hM1, hM2, hM3, hM4, hM5, hM6⟩ :=
    run0_facts cfg (List.range' (cfg.start + 1) (cfg.xref_len - (cfg.start + 1))) stX hndM
      (fun n hn => hty n (by have := (hmemM n).mp hn; omega) ((hmemM n).mp hn).2)
      (fun n hn => by
        rw [huseX]
        exact hus n (by have := (hmemM n).mp hn; omega) ((hmemM n).mp hn).2)
  set stA : EmitState := run_objs cfg 0 (List.range' 1 (cfg.start - 1)) stM with hstA
  obtain ⟨hT1, hT2, hT3, hT4, hT5, hT6⟩ :=
    run0_facts cfg (List.range' 1 (cfg.start - 1)) stM hndT
      (fun n hn => hty n ((hmemT n).mp hn).1 (by have := (hmemT n).mp hn; omega))
      (fun n hn => by
        rw [hM1, huseX]
        exact hus n ((hmemT n).mp hn).1 (by have := (hmemT n).mp hn; omega))
  have hA0 : writeobjects cfg 0 st0 = stA := hzero
  -- pass-0 use list is the input use list
  have huseA : stA.use_list = st0.use_list := by
    rw [hT1, hM1, huseX]
  -- pass-0 offset of object `start`
  have hofsXs : stX.ofs_list cfg.start = stH.pos := by
    rw [hstX]
    simp only
    rw [hS2, Function.update_same]
  have hofsAs : stA.ofs_list cfg.start = stH.pos := by
    rw [hT5 cfg.start (by rw [hmemT]; omega), hM5 cfg.start (by rw [hmemM]; omega), hofsXs]
  -- pass-0 offset of object 1 is the position where the tail section begins
  have htl : List.range' 1 (cfg.start - 1) = 1 :: List.range' 2 (cfg.start - 2) := by
    rw [show cfg.start - 1 = (cfg.start - 2) + 1 by omega, List.range'_succ]
  have hofsA1 : stA.ofs_list 1 = stM.pos := by
    have hone : ¬(1 : Nat) ∈ List.range' 2 (cfg.start - 2) := by
      rw [List.mem_range'_1]
      omega
    obtain ⟨_, _, _, _, hR5, _⟩ :=
      run0_facts cfg (List.range' 2 (cfg.start - 2)) (dowriteobject cfg 0 1 stM)
        (List.nodup_range' _ _ 1 Nat.one_pos)
        (fun n hn => hty n (by rw [List.mem_range'_1] at hn; omega)
          (by rw [List.mem_range'_1] at hn; omega))
        (fun n hn => by
          rw [(dowriteobject_live cfg 0 1 stM (hty 1 (by omega) (by omega))
            (by rw [hM1, huseX]; exact hus 1 (by omega) (by omega))).2.2.1]
          rw [hM1, huseX]
          exact hus n (by rw [List.mem_range'_1] at hn; omega)
            (by rw [List.mem_range'_1] at hn; omega))
    obtain ⟨_, hD2, _, _, _⟩ :=
      dowriteobject_live cfg 0 1 stM (hty 1 (by omega) (by omega))
        (by rw [hM1, huseX]; exact hus 1 (by omega) (by omega))
    simp only [if_neg (by omega : ¬0 < 0)] at hD2
    rw [hstA, htl]
    show (run_objs cfg 0 (List.range' 2 (cfg.start - 2)) (dowriteobject cfg 0 1 stM)).ofs_list 1 =
      stM.pos
    rw [hR5 1 hone, hD2, Function.update_same]
  -- ===== the free list preserves live offsets =====
  obtain ⟨hF1, hF2⟩ :=
    construct_free_list_ofs_live stA.use_list stA.ofs_list stA.gen_list cfg.xref_len
      (fun n h1 h2 => by rw [huseA]; exact hus n h1 h2)
  -- ===== pass 1 =====
  set stB0 : EmitState :=
    { pos := 0
      ofs_list :=
        (construct_free_list stA.use_list cfg.xref_len stA.ofs_list stA.gen_list).1
      gen_list :=
        (construct_free_list stA.use_list cfg.xref_len stA.ofs_list stA.gen_list).2.1
      use_list := stA.use_list
      first_xref_offset := stA.first_xref_offset
      main_xref_offset := stA.pos + cfg.hintstream_len } with hstB0
  have hresofs : (pdf_save_linear cfg st0).ofs_list = (writeobjects cfg 1 stB0).ofs_list := by
    unfold pdf_save_linear
    rw [hA0]
  have hresmxo :
      (pdf_save_linear cfg st0).main_xref_offset =
        (writeobjects cfg 1 stB0).main_xref_offset := by
    unfold pdf_save_linear
    rw [hA0]
  have hone := writeobjects_one_eq cfg stB0 hlin
  simp only at hone
  -- pass-1 stage states
  set stBH : EmitState := { stB0 with pos := stB0.pos + cfg.header_len } with hstBH
  set stBS : EmitState := dowriteobject cfg 1 cfg.start stBH with hstBS
  have husB0 : ∀ n, 1 ≤ n → n < cfg.xref_len → stB0.use_list n ≠ 0 := by
    intro n h1 h2
    show stA.use_list n ≠ 0
    rw [huseA]
    exact hus n h1 h2
  obtain ⟨hBS1, hBS2, hBS3, hBS4, hBS5⟩ :=
    dowriteobject_live cfg 1 cfg.start stBH (hty cfg.start hs1 hsN)
      (husB0 cfg.start hs1 hsN)
  simp only [if_pos (by omega : 0 < 1)] at hBS1 hBS2
  have hofsB0 : ∀ m, 1 ≤ m → stB0.ofs_list m = stA.ofs_list m := fun m hm => hF2 m hm
  have hpadS : padto stBH.pos (stBH.ofs_list cfg.start) = stH.pos := by
    have : stBH.ofs_list cfg.start = stH.pos := by
      show stB0.ofs_list cfg.start = stH.pos
      rw [hofsB0 cfg.start hs1, hofsAs]
    rw [this]
    show padto (stB0.pos + cfg.header_len) stH.pos = stH.pos
    have hpH : stH.pos = st0.pos + cfg.header_len := rfl
    show padto (0 + cfg.header_len) stH.pos = stH.pos
    rw [hpH, hp0]
    unfold padto
    omega
  rw [hpadS] at hBS1 hBS2
  set stBX : EmitState :=
    { stBS with pos := padto stBS.pos stBS.first_xref_offset + cfg.first_xref_len 1 } with hstBX
  have hfxoBS : stBS.first_xref_offset = stS.pos := by
    rw [hBS4]
    show stA.first_xref_offset = stS.pos
    rw [hT2, hM2]
  have hposBX : stBX.pos = stS.pos + cfg.first_xref_len 1 := by
    show padto stBS.pos stBS.first_xref_offset + cfg.first_xref_len 1 =
      stS.pos + cfg.first_xref_len 1
    rw [hfxoBS, hBS1]
    have hle : stH.pos + cfg.obj_len 1 cfg.start ≤ stS.pos := by
      rw [hS1]
      exact Nat.add_le_add_left (hlen cfg.start hs1 hsN) stH.pos
    unfold padto
    omega
  have hposBXle : stBX.pos ≤ stX.pos + 0 := by
    rw [hposBX]
    show stS.pos + cfg.first_xref_len 1 ≤ stS.pos + cfg.first_xref_len 0 + 0
    omega
  -- middle segment: simulate pass 1 against pass 0 with adjustment 0
  have hofsBX : ∀ n, n ∈ List.range' (cfg.start + 1) (cfg.xref_len - (cfg.start + 1)) →
      stBX.ofs_list n = stM.ofs_list n := by
    intro n hn
    obtain ⟨hn1, hn2⟩ := (hmemM n).mp hn
    show stBS.ofs_list n = stM.ofs_list n
    rw [hBS2, Function.update_noteq (by omega)]
    show stB0.ofs_list n = stM.ofs_list n
    rw [hofsB0 n (by omega), hT5 n (by rw [hmemT]; omega)]
  obtain ⟨hSM1, hSM2, hSM3, hSM4, hSM5, hSM6⟩ :=
    sim_seg cfg 0 (List.range' (cfg.start + 1) (cfg.xref_len - (cfg.start + 1))) stX stBX hndM
      (fun n hn => hty n (by have := (hmemM n).mp hn; omega) ((hmemM n).mp hn).2)
      (fun n hn => by
        rw [huseX]
        exact hus n (by have := (hmemM n).mp hn; omega) ((hmemM n).mp hn).2)
      (fun n hn => by
        rw [hstBX]
        show stBS.use_list n ≠ 0
        rw [hBS3]
        exact husB0 n (by have := (hmemM n).mp hn; omega) ((hmemM n).mp hn).2)
      (fun n hn => hlen n (by have := (hmemM n).mp hn; omega) ((hmemM n).mp hn).2)
      hofsBX hposBXle
  rw [run_objs_adj_zero] at hSM1 hSM2 hSM3 hSM4 hSM5 hSM6
  set stBM : EmitState :=
    run_objs cfg 1 (List.range' (cfg.start + 1) (cfg.xref_len - (cfg.start + 1))) stBX with hstBM
  -- the pad to the tail section
  have hofsBM1 : stBM.ofs_list 1 = stM.pos := by
    rw [hSM3 1 (by rw [hmemM]; omega)]
    show stBS.ofs_list 1 = stM.pos
    rw [hBS2, Function.update_noteq (by omega)]
    show stB0.ofs_list 1 = stM.pos
    rw [hofsB0 1 (by omega), hofsA1]
  set stBP : EmitState :=
    { stBM with
      pos :=
        padto stBM.pos
          (if cfg.start = 1 then stBM.main_xref_offset
           else stBM.ofs_list 1 + cfg.hintstream_len) } with hstBP
  have hposBP : stBP.pos ≤ stM.pos + cfg.hintstream_len := by
    show padto stBM.pos _ ≤ stM.pos + cfg.hintstream_len
    rw [if_neg (by omega : ¬cfg.start = 1), hofsBM1]
    have h1 : stBM.pos ≤ stM.pos := le_of_le_of_eq hSM1 (Nat.add_zero _)
    unfold padto
    omega
  -- tail segment: simulate pass 1 against pass 0 with the hint adjustment
  have hofsBP : ∀ n, n ∈ List.range' 1 (cfg.start - 1) →
      stBP.ofs_list n = (run_objs cfg 0 (List.range' 1 (cfg.start - 1)) stM).ofs_list n := by
    intro n hn
    obtain ⟨hn1, hn2⟩ := (hmemT n).mp hn
    show stBM.ofs_list n = stA.ofs_list n
    rw [hSM3 n (by rw [hmemM]; omega)]
    show stBS.ofs_list n = stA.ofs_list n
    rw [hBS2, Function.update_noteq (by omega)]
    exact hofsB0 n (by omega)
  obtain ⟨hST1, hST2, hST3, hST4, hST5, hST6⟩ :=
    sim_seg cfg cfg.hintstream_len (List.range' 1 (cfg.start - 1)) stM stBP hndT
      (fun n hn => hty n ((hmemT n).mp hn).1 (by have := (hmemT n).mp hn; omega))
      (fun n hn => by
        rw [hM1, huseX]
        exact hus n ((hmemT n).mp hn).1 (by have := (hmemT n).mp hn; omega))
      (fun n hn => by
        rw [hstBP]
        show stBM.use_list n ≠ 0
        rw [hSM4]
        show stBX.use_list n ≠ 0
        rw [hstBX]
        show stBS.use_list n ≠ 0
        rw [hBS3]
        exact husB0 n ((hmemT n).mp hn).1 (by have := (hmemT n).mp hn; omega))
      (fun n hn => hlen n ((hmemT n).mp hn).1 (by have := (hmemT n).mp hn; omega))
      hofsBP hposBP
  -- assemble the final bound
  have hresult : writeobjects cfg 1 stB0 =
      run_objs_adj cfg cfg.hintstream_len (List.range' 1 (cfg.start - 1)) stBP := hone
  have hofs_fin : (pdf_save_linear cfg st0).ofs_list i ≤ stA.ofs_list i + cfg.hintstream_len := by
    rw [hresofs, hresult]
    exact hST2 i (by rw [hmemT]; omega)
  have hmxo_fin :
      (pdf_save_linear cfg st0).main_xref_offset = stA.pos + cfg.hintstream_len := by
    rw [hresmxo, hresult, hST6]
    show stBM.main_xref_offset = stA.pos + cfg.hintstream_len
    rw [hSM6]
    show stBS.main_xref_offset = stA.pos + cfg.hintstream_len
    rw [hBS5]
  have hbound : stA.ofs_list i + cfg.obj_len 0 i ≤ stA.pos :=
    (hT6 i (by rw [hmemT]; omega)).1
  have hlen0i := hlen0 i hi1 his
  rw [hmxo_fin]
  omega

theorem linear_tail_offsets_witness :
    linear_demo_cfg.do_linear = true ∧ (1 : Nat) < linear_demo_cfg.start ∧
      (pdf_save_linear linear_demo_cfg linear_demo_state).ofs_list 1 <
        (pdf_save_linear linear_demo_cfg linear_demo_state).main_xref_offset :=
  ⟨rfl, by decide,
    linear_tail_offsets_amended linear_demo_cfg linear_demo_state rfl (by decide)
      (fun n h1 _ => by
        show (if n = 0 then XrefType.free else XrefType.used) ≠ XrefType.free
        rw [if_neg (by omega)]
        simp)
      (fun n h1 _ => by
        show (if n = 0 then (0 : Nat) else 1) ≠ 0
        rw [if_neg (by omega)]
        simp)
      (fun n _ _ => Nat.le_refl 10)
      (Nat.le_refl 20)
      (fun n _ _ => Nat.le_of_lt_succ (Nat.lt_succ_of_lt (by decide : (1 : Nat) < 10)))
      rfl 1 (Nat.le_refl 1) (by decide)⟩

/-- C1: duplicate removal merges exactly the structurally equal pairs.
`removeduplicateobjs` (the transcription of pdf-write.c, lines 601-693)
coincides with `removeduplicateobjs_spec`, the routine written from the
claim's words: ids are scanned in ascending order; a live id `j` merges
with the first live `i < j` that is structurally equal to it — where a
stream and a non-stream never compare equal, and two streams compare equal
only when `garbage ≥ 4` and their raw buffers are byte-for-byte identical
(with equal stream dictionaries) — and the merge maps both ids to
`min(i,j)` and clears the use entry of `max(i,j)`, after which the scan
for that `j` stops (at most one merge per outer object). -/
theorem removeduplicateobjs_eq_spec {α : Type} [DecidableEq α] (d : DedupDoc α)
    (st : DedupState) : removeduplicateobjs d st = removeduplicateobjs_spec d st := by
  unfold removeduplicateobjs removeduplicateobjs_spec
  apply List.foldl_ext
  intro st num hmem
  have h1 : 1 ≤ num := (List.mem_range'_1.mp hmem).1
  have hbound : ∀ o ∈ List.range' 1 (num - 1), o < num := by
    intro o ho
    have := List.mem_range'_1.mp ho
    omega
  exact removeduplicate_inner_eq d num _ st hbound

end PdfWrite
